import Mathlib

/-!
Verification of the ragged all-to-all execution engine
(`nccl_ragged_all_to_all_thunk.cc`) against its natural-language
specification.

The embedding models:
* host memory as a byte-addressed map `Mem`, with little-endian integer
  reads (`readLE`) mirroring `reinterpret_cast<int32_t*>/<int64_t*>`
  indexing on a little-endian machine;
* `IntegerOperandData` (the width-polymorphic index accessor) including
  its `LOG(FATAL)` branch, which terminates the process and therefore
  never returns a value to the caller (`GetOutcome.fatalCrash`);
* `LoadOffsetAndSizeOperands` and `RunRaggedAllToAll` as trace-producing
  functions: every communicator / stream call is recorded as an `Event`,
  and the outcomes of the external calls (stream memcpy, blocking wait,
  group start/end, send, recv, ...) are supplied by an environment `Env`
  so that every return path of the source is represented;
* the per-device host staging buffer cache of
  `NcclRaggedAllToAllStartThunk` as an association list together with
  the log of performed host allocations, and the `absl` map `.at()`
  lookup in `RunNcclCollective`, which terminates the process when the
  key is absent (`Outcome.fatal`) rather than returning a status.
-/

/-- XLA primitive element types (the subset relevant to this thunk). -/
inductive PrimitiveType
  | PRED | S8 | U8 | S16 | U16 | S32 | U32 | S64 | U64 | F16 | BF16 | F32 | F64
  deriving DecidableEq, Inhabited

/-- Byte width of a primitive element type. -/
def primitiveByteWidth : PrimitiveType → Nat
  | .PRED | .S8 | .U8 => 1
  | .S16 | .U16 | .F16 | .BF16 => 2
  | .S32 | .U32 | .F32 => 4
  | .S64 | .U64 | .F64 => 8

/-- The integer width (in bytes) that `IntegerOperandData::get` decodes for a
given element type: `some 4` for 32-bit integers, `some 8` for 64-bit
integers, and `none` for every type outside the two supported widths
(the `LOG(FATAL)` branch of the source). -/
def intWidthBytes : PrimitiveType → Option Nat
  | .S32 | .U32 => some 4
  | .S64 | .U64 => some 8
  | _ => none

/-- Byte-addressed host memory. -/
def Mem : Type := Nat → Nat

/-- Host memory that views a byte list, 0 beyond the end. -/
def bytesAt (bs : List Nat) : Mem := fun a => bs.getD a 0

/-- Overwrite the byte range `[off, off + bs.length)` of `m` with `bs`
(the effect of a device-to-host `Memcpy` into the staging buffer). -/
def writeBytes (m : Mem) (off : Nat) (bs : List Nat) : Mem :=
  fun a => if off ≤ a ∧ a < off + bs.length then bs.getD (a - off) 0 else m a

/-- Little-endian read of `w` bytes starting at byte address `off`. -/
def readLE (m : Mem) : Nat → Nat → Nat
  | _, 0 => 0
  | off, w + 1 => m off + 256 * readLE m (off + 1) w

/-- Reinterpret an unsigned `bits`-bit value as a two's-complement signed
integer (the effect of reading through `int32_t*` / `int64_t*` and widening
to `int64_t`). -/
def toSigned (bits : Nat) (v : Nat) : Int :=
  if v < 2 ^ (bits - 1) then (v : Int) else (v : Int) - 2 ^ bits

/-- Little-endian encoding of the low `w` bytes of a natural number. -/
def encodeLE : Nat → Nat → List Nat
  | 0, _ => []
  | w + 1, v => v % 256 :: encodeLE w (v / 256)

/-- Little-endian two's-complement encoding of an integer in `w` bytes. -/
def encodeIntLE (w : Nat) (v : Int) : List Nat :=
  encodeLE w (v % ((2 : Int) ^ (8 * w))).toNat

/-- A packed array of `w`-byte two's-complement integers. -/
def encodeIntArr (w : Nat) : List Int → List Nat
  | [] => []
  | v :: vs => encodeIntLE w v ++ encodeIntArr w vs

/-- Result of `IntegerOperandData::get`. The source either returns the
decoded `int64_t`, or hits `LOG(FATAL)`, which terminates the process:
control never returns to the caller and no error value is produced. -/
inductive GetOutcome
  | value (v : Int)
  | fatalCrash
  deriving DecidableEq

/-- A wrapper around a raw data buffer that indexes values based on the
`PrimitiveType` stored in the buffer.  `base` is the byte offset of the
wrapped pointer within the host staging memory. -/
structure IntegerOperandData where
  element_type : PrimitiveType
  base : Nat
  deriving DecidableEq, Inhabited

/-- The accessor `IntegerOperandData::get`: decode the `i`-th element.  32-bit types are
read through `int32_t*` (4-byte little-endian, sign-extended to 64 bits),
64-bit types through `int64_t*`; any other element type hits `LOG(FATAL)`. -/
def IntegerOperandData.get (d : IntegerOperandData) (mem : Mem) (i : Nat) : GetOutcome :=
  match d.element_type with
  | .S32 | .U32 => .value (toSigned 32 (readLE mem (d.base + 4 * i) 4))
  | .S64 | .U64 => .value (toSigned 64 (readLE mem (d.base + 8 * i) 8))
  | _ => .fatalCrash

/-- Error codes of `absl::Status` relevant here. -/
inductive ErrorCode
  | internal | invalidArgument | generic
  deriving DecidableEq

/-- An error status. -/
structure Err where
  code : ErrorCode
  msg : String
  deriving DecidableEq

/-- Overall outcome of a run function: normal status return (`ok` /
`error`), or process termination (`fatal`) that never produces a status. -/
inductive Outcome
  | ok
  | error (e : Err)
  | fatal
  deriving DecidableEq

/-- A device memory buffer (its byte contents; `size()` is the length). -/
structure DeviceMemory where
  bytes : List Nat
  deriving DecidableEq, Inhabited

/-- A `DeviceBufferPair`: element type, element count, and the source /
destination device buffers of one buffer binding. -/
structure DeviceBufferPair where
  element_type : PrimitiveType
  element_count : Nat
  source_buffer : DeviceMemory
  destination_buffer : DeviceMemory
  deriving DecidableEq, Inhabited

/-- Observable calls issued by one invocation, in program order.
`memcpyD2H off bs` is a staging copy of bytes `bs` into the host buffer at
byte offset `off`; `send`/`recv` record the peer, the payload buffer the
slice was taken from, and the slice's element offset and element count. -/
inductive Event
  | memcpyD2H (dstOffset : Nat) (bytes : List Nat)
  | blockHostUntilDone
  | groupStart
  | send (peer : Nat) (srcBytes : List Nat) (offsetElements countElements : Int)
  | recv (peer : Nat) (dstBytes : List Nat) (offsetElements countElements : Int)
  | groupEnd
  deriving DecidableEq

/-- Results of the external (collaborator) calls an invocation makes, so
that every return path of the source function is represented.  `.ok ()`
means the call succeeds; `.error e` means it returns status `e`. -/
structure Env where
  convertStatus : Except Err Unit
  getCollectivesStatus : Except Err Unit
  registerStatus : Except Err Unit
  numRanks : Except Err Nat
  memcpyStatus : Nat → Except Err Unit
  blockStatus : Except Err Unit
  groupStartStatus : Except Err Unit
  sendStatus : Nat → Except Err Unit
  recvStatus : Nat → Except Err Unit
  groupEndStatus : Except Err Unit

/-- The staging loop of `LoadOffsetAndSizeOperands`: for each remaining
operand buffer, `Memcpy` its source bytes to the host pointer, wrap the
pointer in an `IntegerOperandData`, and advance the pointer by
`num_elements` 64-bit words (`host_buffer_alloc += num_elements` on an
`int64_t*`), regardless of the operand's actual element width.  `i` counts
loop iterations (for indexing `Env.memcpyStatus`). -/
def stageCopies (env : Env) (i : Nat) (num_elements : Nat) :
    List DeviceBufferPair → Nat → Mem → List Event × Mem × Except Err (List IntegerOperandData)
  | [], _, mem => ([], mem, .ok [])
  | b :: rest, base, mem =>
    match env.memcpyStatus i with
    | .error e => ([], mem, .error e)
    | .ok _ =>
      let ev := Event.memcpyD2H base b.source_buffer.bytes
      let memNext := writeBytes mem base b.source_buffer.bytes
      let idx : IntegerOperandData := ⟨b.element_type, base⟩
      match stageCopies env (i + 1) num_elements rest (base + num_elements * 8) memNext with
      | (evs, memLast, r) => (ev :: evs, memLast, r.map (idx :: ·))

/-- The function `LoadOffsetAndSizeOperands`: stage the index operands (the buffers from
position 2 onwards) to the host staging buffer, then block until the
stream's work is done.  A blocking-wait failure is wrapped into an
`InternalError` mentioning the stream and the underlying message. -/
def LoadOffsetAndSizeOperands (env : Env) (buffers : List DeviceBufferPair) (mem : Mem) :
    List Event × Mem × Except Err (List IntegerOperandData) :=
  let num_elements := (buffers.getD 2 default).element_count
  match stageCopies env 0 num_elements (buffers.drop 2) 0 mem with
  | (evs, memLast, .error e) => (evs, memLast, .error e)
  | (evs, memLast, .ok indices) =>
    match env.blockStatus with
    | .error blocked =>
      (evs ++ [Event.blockHostUntilDone], memLast,
        .error ⟨.internal,
          "Failed to complete all kernels launched on stream: ".append blocked.msg⟩)
    | .ok _ => (evs ++ [Event.blockHostUntilDone], memLast, .ok indices)

/-- The peer loop of `RunRaggedAllToAll`: for each peer (in list order),
compute the send slice of the payload source buffer from
`input_offsets[peer]` and `send_sizes[peer]`, the recv slice of the payload
destination buffer from `output_offsets[peer]` and `recv_sizes[peer]`
(both scaled by the row element count `E`), then issue `Send` and `Recv`.
A `LOG(FATAL)` inside an index read terminates the process
(`Outcome.fatal`); a failing `Send`/`Recv` returns its error immediately
(before any `GroupEnd`). -/
def peerLoop (env : Env) (E : Int) (data_buffer : DeviceBufferPair) (mem : Mem)
    (input_offsets send_sizes output_offsets recv_sizes : IntegerOperandData) :
    List Nat → List Event × Outcome
  | [] => ([], .ok)
  | peer :: rest =>
    match input_offsets.get mem peer, send_sizes.get mem peer,
          output_offsets.get mem peer, recv_sizes.get mem peer with
    | .value io, .value ss, .value oo, .value rs =>
      let sendEv := Event.send peer data_buffer.source_buffer.bytes (io * E) (ss * E)
      (match env.sendStatus peer with
      | .error e => ([sendEv], .error e)
      | .ok _ =>
        let recvEv := Event.recv peer data_buffer.destination_buffer.bytes (oo * E) (rs * E)
        match env.recvStatus peer with
        | .error e => ([sendEv, recvEv], .error e)
        | .ok _ =>
          match peerLoop env E data_buffer mem input_offsets send_sizes output_offsets
              recv_sizes rest with
          | (evs, out) => (sendEv :: recvEv :: evs, out))
    | _, _, _, _ => ([], .fatal)

/-- The orchestrator `RunRaggedAllToAll`: register buffers, query the rank count, stage the
four index arrays to the host (with the blocking wait), then inside a
`GroupStart`/`GroupEnd` scope issue one `Send` and one `Recv` per peer in
ascending peer order. -/
def RunRaggedAllToAll (env : Env) (ragged_row_element_size : Int)
    (buffers : List DeviceBufferPair) (mem : Mem) : List Event × Outcome :=
  match env.registerStatus with
  | .error e => ([], .error e)
  | .ok _ =>
  match env.numRanks with
  | .error e => ([], .error e)
  | .ok num_ranks =>
  match LoadOffsetAndSizeOperands env buffers mem with
  | (evs, _, .error e) => (evs, .error e)
  | (evs, memLast, .ok index_operands) =>
    let input_offsets := index_operands.getD 0 default
    let send_sizes := index_operands.getD 1 default
    let output_offsets := index_operands.getD 2 default
    let recv_sizes := index_operands.getD 3 default
    match env.groupStartStatus with
    | .error e => (evs ++ [Event.groupStart], .error e)
    | .ok _ =>
      let data_buffer := buffers.getD 0 default
      match peerLoop env ragged_row_element_size data_buffer memLast input_offsets
          send_sizes output_offsets recv_sizes (List.range num_ranks) with
      | (loopEvs, .ok) =>
        match env.groupEndStatus with
        | .error e => (evs ++ Event.groupStart :: (loopEvs ++ [Event.groupEnd]), .error e)
        | .ok _ => (evs ++ Event.groupStart :: (loopEvs ++ [Event.groupEnd]), .ok)
      | (loopEvs, out) => (evs ++ Event.groupStart :: loopEvs, out)

/-- Per-thunk mutable state: the per-device host staging buffer cache
(`host_buffer_allocs_`, device ordinal to allocation id, under `mutex_`)
together with the log of host allocations performed (their byte sizes,
oldest first). -/
structure ThunkState where
  host_buffer_allocs : List (Nat × Nat)
  allocs : List Nat
  deriving DecidableEq

/-- The method `NcclRaggedAllToAllStartThunk::Initialize` (the staging-cache part;
the inherited generic collective initialization is outside this core and
modelled as succeeding): under the lock, if no cache entry exists for
`executor`, allocate a pinned host region of
`4 * num_ragged_rows * sizeof(int64_t)` bytes and insert it.  `allocOk`
is the result of `HostMemoryAllocate`; on failure the error propagates
and the state is unchanged. -/
def NcclRaggedAllToAllStartThunk.InitializeState (allocOk : Bool) (num_ragged_rows : Nat)
    (s : ThunkState) (executor : Nat) : Except Err ThunkState :=
  match s.host_buffer_allocs.lookup executor with
  | some _ => .ok s
  | none =>
    if allocOk then
      .ok { host_buffer_allocs := s.host_buffer_allocs ++ [(executor, s.allocs.length)],
            allocs := s.allocs ++ [4 * num_ragged_rows * 8] }
    else .error ⟨.generic, "HostMemoryAllocate failed"⟩

/-- The staging-region fetch in `RunNcclCollective`:
`host_buffer_allocs_.at(stream.parent())`. -/
def fetchHostBufferAlloc (s : ThunkState) (executor : Nat) : Option Nat :=
  s.host_buffer_allocs.lookup executor

/-- The method `NcclRaggedAllToAllStartThunk::RunNcclCollective`: convert the bound
buffers, get the collectives interface, fetch the staging region with
`host_buffer_allocs_.at(...)` — which terminates the process when no entry
exists for the device (`absl` raises/aborts on a missing key; no status is
returned) — and delegate to `RunRaggedAllToAll`. -/
def NcclRaggedAllToAllStartThunk.RunNcclCollective (env : Env) (s : ThunkState)
    (device : Nat) (ragged_row_element_size : Int) (buffers : List DeviceBufferPair)
    (mem : Mem) : List Event × Outcome :=
  match env.convertStatus with
  | .error e => ([], .error e)
  | .ok _ =>
  match env.getCollectivesStatus with
  | .error e => ([], .error e)
  | .ok _ =>
  match fetchHostBufferAlloc s device with
  | none => ([], .fatal)
  | some _ => RunRaggedAllToAll env ragged_row_element_size buffers mem

/-- An operand shape, kept opaque (only its printed form matters here). -/
structure Shape where
  descr : String
  deriving DecidableEq

/-- Modelled from the spec: `IsValidOperand(shape, kind)` is defined in the
shared collective-thunk layer, which is not part of the examined source;
per the spec it validates that the shape is an acceptable operand shape
for this collective kind and fails with an `InvalidArgument`-class error
naming the offending operand.  The acceptability criterion itself is kept
abstract as the predicate `valid`. -/
def IsValidOperand (valid : Shape → Bool) (shape : Shape) : Except Err Unit :=
  if valid shape then .ok ()
  else .error ⟨.invalidArgument, "invalid operand shape: ".append shape.descr⟩

/-- Modelled from the spec: `AddOpDescription` (shared collective-thunk
layer, not in the examined source) returns a success status unchanged and
appends the operation description to an error status. -/
def AddOpDescription (st : Except Err Unit) (opDescription : String) : Except Err Unit :=
  match st with
  | .ok _ => .ok ()
  | .error e => .error ⟨e.code, (e.msg.append "; op: ").append opDescription⟩

/-- The operand loop inside `CheckImplementable`: validate each operand in
order, returning the first failure (`TF_RETURN_IF_ERROR`). -/
def checkOperandsLoop (valid : Shape → Bool) : List Shape → Except Err Unit
  | [] => .ok ()
  | sh :: rest =>
    match IsValidOperand valid sh with
    | .error e => .error e
    | .ok _ => checkOperandsLoop valid rest

/-- The static method `NcclRaggedAllToAllStartThunk::CheckImplementable`: validate every
operand shape, fail-fast, and wrap the result with the operation
description.  Static: a pure function of the operands. -/
def NcclRaggedAllToAllStartThunk.CheckImplementable (valid : Shape → Bool)
    (operands : List Shape) (opDescription : String)
    (replica_count partition_count : Int) : Except Err Unit :=
  AddOpDescription (checkOperandsLoop valid operands) opDescription

/-- All-success environment with `N` ranks. -/
def envAllOk (N : Nat) : Env :=
  ⟨.ok (), .ok (), .ok (), .ok N, fun _ => .ok (), .ok (), .ok (),
   fun _ => .ok (), fun _ => .ok (), .ok ()⟩

/-- All-zero host memory. -/
def memZero : Mem := fun _ => 0

/-- Two byte ranges (offset, length) do not overlap. -/
def disjointRanges (o1 l1 o2 l2 : Nat) : Prop := o1 + l1 ≤ o2 ∨ o2 + l2 ≤ o1

/-- A byte range lies inside a region of `size` bytes starting at 0. -/
def withinRegion (o l size : Nat) : Prop := o + l ≤ size

/-! ### Little-endian memory lemmas -/

theorem readLE_eq_of_pointwise (m1 m2 : Mem) (o1 o2 : Nat) :
    ∀ w : Nat, (∀ j, j < w → m1 (o1 + j) = m2 (o2 + j)) →
      readLE m1 o1 w = readLE m2 o2 w := by
  intro w
  induction w generalizing o1 o2 with
  | zero => intro _; rfl
  | succ n ih =>
    intro h
    show m1 o1 + 256 * readLE m1 (o1 + 1) n = m2 o2 + 256 * readLE m2 (o2 + 1) n
    have h0 : m1 o1 = m2 o2 := by simpa using h 0 (Nat.succ_pos n)
    have hrest : readLE m1 (o1 + 1) n = readLE m2 (o2 + 1) n := by
      apply ih
      intro j hj
      have := h (j + 1) (by omega)
      have e1 : o1 + (j + 1) = o1 + 1 + j := by omega
      have e2 : o2 + (j + 1) = o2 + 1 + j := by omega
      rwa [e1, e2] at this
    rw [h0, hrest]

theorem readLE_writeBytes_high (m : Mem) (off w off2 : Nat) (bs : List Nat)
    (h : off + w ≤ off2) :
    readLE (writeBytes m off2 bs) off w = readLE m off w := by
  apply readLE_eq_of_pointwise
  intro j hj
  unfold writeBytes
  rw [if_neg]
  omega

theorem readLE_writeBytes_low (m : Mem) (off2 : Nat) (bs : List Nat) (p w : Nat)
    (h : p + w ≤ bs.length) :
    readLE (writeBytes m off2 bs) (off2 + p) w = readLE (bytesAt bs) p w := by
  apply readLE_eq_of_pointwise
  intro j hj
  unfold writeBytes bytesAt
  rw [if_pos (by omega)]
  congr 1
  omega

theorem readLE_bytesAt_append (xs ys : List Nat) (q w : Nat) :
    readLE (bytesAt (xs ++ ys)) (xs.length + q) w = readLE (bytesAt ys) q w := by
  apply readLE_eq_of_pointwise
  intro j hj
  unfold bytesAt
  rw [show xs.length + q + j = xs.length + (q + j) by omega,
      List.getD_append_right xs ys 0 _ (by omega)]
  congr 1
  omega

theorem encodeLE_length (w v : Nat) : (encodeLE w v).length = w := by
  induction w generalizing v with
  | zero => rfl
  | succ n ih => simp [encodeLE, ih]

theorem encodeIntLE_length (w : Nat) (v : Int) : (encodeIntLE w v).length = w := by
  unfold encodeIntLE; exact encodeLE_length _ _

theorem encodeIntArr_length (w : Nat) (vs : List Int) :
    (encodeIntArr w vs).length = vs.length * w := by
  induction vs with
  | nil => simp [encodeIntArr]
  | cons v vs ih =>
    simp [encodeIntArr, ih, encodeIntLE_length, Nat.succ_mul, Nat.add_comm]

theorem readLE_bytesAt_encodeLE (w : Nat) :
    ∀ (n : Nat) (rest : List Nat),
      readLE (bytesAt (encodeLE w n ++ rest)) 0 w = n % 256 ^ w := by
  induction w with
  | zero => intro n rest; simp [readLE, Nat.mod_one]
  | succ k ih =>
    intro n rest
    show bytesAt (encodeLE (k + 1) n ++ rest) 0 +
        256 * readLE (bytesAt (encodeLE (k + 1) n ++ rest)) (0 + 1) k = n % 256 ^ (k + 1)
    have hhead : bytesAt (encodeLE (k + 1) n ++ rest) 0 = n % 256 := by
      simp [bytesAt, encodeLE]
    have htail : readLE (bytesAt (encodeLE (k + 1) n ++ rest)) (0 + 1) k =
        (n / 256) % 256 ^ k := by
      have hskip : readLE (bytesAt (encodeLE (k + 1) n ++ rest)) (0 + 1) k =
          readLE (bytesAt (encodeLE k (n / 256) ++ rest)) 0 k := by
        apply readLE_eq_of_pointwise
        intro j hj
        simp [bytesAt, encodeLE, show 0 + 1 + j = j + 1 by omega]
      rw [hskip, ih]
    rw [hhead, htail, pow_succ, mul_comm (256 ^ k) 256, Nat.mod_mul]

theorem emod_two_pow_toNat_lt (v : Int) (w : Nat) :
    (v % ((2 : Int) ^ (8 * w))).toNat < 256 ^ w := by
  have hpos : (0 : Int) < 2 ^ (8 * w) := by positivity
  have h2 : v % 2 ^ (8 * w) < 2 ^ (8 * w) := Int.emod_lt_of_pos v hpos
  have hcast : ((2 : Int) ^ (8 * w)) = ((256 ^ w : Nat) : Int) := by
    push_cast
    rw [pow_mul]
    norm_num
  rw [hcast] at h2
  omega

theorem readLE_encodeIntArr (w : Nat) (vs : List Int) :
    ∀ p : Nat, p < vs.length →
      readLE (bytesAt (encodeIntArr w vs)) (w * p) w =
        ((vs.getD p 0) % ((2 : Int) ^ (8 * w))).toNat := by
  induction vs with
  | nil => intro p hp; simp at hp
  | cons v vs ih =>
    intro p hp
    cases p with
    | zero =>
      show readLE (bytesAt (encodeIntArr w (v :: vs))) (w * 0) w = _
      rw [Nat.mul_zero]
      show readLE (bytesAt (encodeIntLE w v ++ encodeIntArr w vs)) 0 w = _
      unfold encodeIntLE
      rw [readLE_bytesAt_encodeLE]
      simp [Nat.mod_eq_of_lt (emod_two_pow_toNat_lt v w)]
    | succ q =>
      show readLE (bytesAt (encodeIntLE w v ++ encodeIntArr w vs)) (w * (q + 1)) w = _
      have harith : w * (q + 1) = (encodeIntLE w v).length + w * q := by
        rw [encodeIntLE_length]; ring
      rw [harith, readLE_bytesAt_append, ih q (by simpa using Nat.lt_of_succ_lt_succ hp)]
      simp

theorem toSigned32_emod (v : Int) (h1 : -(2 ^ 31) ≤ v) (h2 : v < 2 ^ 31) :
    toSigned 32 ((v % 2 ^ 32).toNat) = v := by
  unfold toSigned
  split <;> omega

theorem toSigned64_emod (v : Int) (h1 : -(2 ^ 63) ≤ v) (h2 : v < 2 ^ 63) :
    toSigned 64 ((v % 2 ^ 64).toNat) = v := by
  unfold toSigned
  split <;> omega

/-! ### Index accessor lemmas -/

theorem intWidthBytes_cases (t : PrimitiveType) (w : Nat) (hw : intWidthBytes t = some w) :
    w = 4 ∨ w = 8 := by
  cases t <;> simp_all [intWidthBytes]

theorem get_eq_toSigned (t : PrimitiveType) (w : Nat) (hw : intWidthBytes t = some w)
    (b : Nat) (mem : Mem) (i : Nat) :
    (⟨t, b⟩ : IntegerOperandData).get mem i =
      .value (toSigned (8 * w) (readLE mem (b + w * i) w)) := by
  cases t <;> simp only [intWidthBytes, Option.some.injEq] at hw <;>
    first
      | exact absurd hw (by simp)
      | (subst hw; rfl)

theorem toSigned_emod_width (w : Nat) (hw : w = 4 ∨ w = 8) (v : Int)
    (h1 : -(2 ^ (8 * w - 1)) ≤ v) (h2 : v < 2 ^ (8 * w - 1)) :
    toSigned (8 * w) ((v % ((2 : Int) ^ (8 * w))).toNat) = v := by
  rcases hw with rfl | rfl
  · exact toSigned32_emod v h1 h2
  · exact toSigned64_emod v h1 h2

theorem getD_mem_of_lt (vs : List Int) (p : Nat) (h : p < vs.length) : vs.getD p 0 ∈ vs := by
  rw [List.getD_eq_getElem _ _ h]
  exact List.getElem_mem h

theorem tile_inner (w p R : Nat) (hp : p < R) : w * p + w ≤ R * w := by
  have h1 : w * p + w = w * (p + 1) := by ring
  have h2 : w * (p + 1) ≤ w * R := Nat.mul_le_mul_left w hp
  have h3 : w * R = R * w := Nat.mul_comm w R
  omega

theorem tile_bound (w p R : Nat) (hw : w ≤ 8) (hp : p < R) : w * p + w ≤ R * 8 := by
  have h1 : w * p + w = w * (p + 1) := by ring
  have h2 : w * (p + 1) ≤ w * R := Nat.mul_le_mul_left w hp
  have h3 : w * R ≤ 8 * R := Nat.mul_le_mul_right R hw
  have h4 : 8 * R = R * 8 := Nat.mul_comm 8 R
  omega

/-- Decoding one staged index array after the four staging copies: the
`j`-th accessor (based at `j * ragged_row_count * 8` bytes) recovers the
`p`-th logical value of the `j`-th array. -/
theorem staged_get (m : Mem) (R : Nat)
    (t2 t3 t4 t5 : PrimitiveType) (w2 w3 w4 w5 : Nat)
    (hw2 : intWidthBytes t2 = some w2) (hw3 : intWidthBytes t3 = some w3)
    (hw4 : intWidthBytes t4 = some w4) (hw5 : intWidthBytes t5 = some w5)
    (a2 a3 a4 a5 : List Int)
    (hl2 : a2.length = R) (hl3 : a3.length = R) (hl4 : a4.length = R) (hl5 : a5.length = R)
    (hf2 : ∀ x ∈ a2, -(2 ^ (8 * w2 - 1)) ≤ x ∧ x < 2 ^ (8 * w2 - 1))
    (hf3 : ∀ x ∈ a3, -(2 ^ (8 * w3 - 1)) ≤ x ∧ x < 2 ^ (8 * w3 - 1))
    (hf4 : ∀ x ∈ a4, -(2 ^ (8 * w4 - 1)) ≤ x ∧ x < 2 ^ (8 * w4 - 1))
    (hf5 : ∀ x ∈ a5, -(2 ^ (8 * w5 - 1)) ≤ x ∧ x < 2 ^ (8 * w5 - 1))
    (p : Nat) (hp : p < R) :
    (⟨t2, 0⟩ : IntegerOperandData).get
        (writeBytes (writeBytes (writeBytes (writeBytes m 0 (encodeIntArr w2 a2))
          (R * 8) (encodeIntArr w3 a3)) (R * 8 + R * 8) (encodeIntArr w4 a4))
          (R * 8 + R * 8 + R * 8) (encodeIntArr w5 a5)) p = .value (a2.getD p 0) ∧
    (⟨t3, R * 8⟩ : IntegerOperandData).get
        (writeBytes (writeBytes (writeBytes (writeBytes m 0 (encodeIntArr w2 a2))
          (R * 8) (encodeIntArr w3 a3)) (R * 8 + R * 8) (encodeIntArr w4 a4))
          (R * 8 + R * 8 + R * 8) (encodeIntArr w5 a5)) p = .value (a3.getD p 0) ∧
    (⟨t4, R * 8 + R * 8⟩ : IntegerOperandData).get
        (writeBytes (writeBytes (writeBytes (writeBytes m 0 (encodeIntArr w2 a2))
          (R * 8) (encodeIntArr w3 a3)) (R * 8 + R * 8) (encodeIntArr w4 a4))
          (R * 8 + R * 8 + R * 8) (encodeIntArr w5 a5)) p = .value (a4.getD p 0) ∧
    (⟨t5, R * 8 + R * 8 + R * 8⟩ : IntegerOperandData).get
        (writeBytes (writeBytes (writeBytes (writeBytes m 0 (encodeIntArr w2 a2))
          (R * 8) (encodeIntArr w3 a3)) (R * 8 + R * 8) (encodeIntArr w4 a4))
          (R * 8 + R * 8 + R * 8) (encodeIntArr w5 a5)) p = .value (a5.getD p 0) := by
  have hc2 := intWidthBytes_cases t2 w2 hw2
  have hc3 := intWidthBytes_cases t3 w3 hw3
  have hc4 := intWidthBytes_cases t4 w4 hw4
  have hc5 := intWidthBytes_cases t5 w5 hw5
  have hle2 : w2 ≤ 8 := by omega
  have hle3 : w3 ≤ 8 := by omega
  have hle4 : w4 ≤ 8 := by omega
  have hle5 : w5 ≤ 8 := by omega
  have hb2 := tile_bound w2 p R hle2 hp
  have hb3 := tile_bound w3 p R hle3 hp
  have hb4 := tile_bound w4 p R hle4 hp
  have hb5 := tile_bound w5 p R hle5 hp
  refine ⟨?_, ?_, ?_, ?_⟩
  · rw [get_eq_toSigned t2 w2 hw2]
    rw [readLE_writeBytes_high _ _ _ _ _ (by omega)]
    rw [readLE_writeBytes_high _ _ _ _ _ (by omega)]
    rw [readLE_writeBytes_high _ _ _ _ _ (by omega)]
    rw [readLE_writeBytes_low _ _ _ _ _
      (by rw [encodeIntArr_length, hl2]; exact tile_inner w2 p R hp)]
    rw [readLE_encodeIntArr w2 a2 p (by omega)]
    rw [toSigned_emod_width w2 hc2 _ (hf2 _ (getD_mem_of_lt a2 p (by omega))).1
      (hf2 _ (getD_mem_of_lt a2 p (by omega))).2]
  · rw [get_eq_toSigned t3 w3 hw3]
    rw [readLE_writeBytes_high _ _ _ _ _ (by omega)]
    rw [readLE_writeBytes_high _ _ _ _ _ (by omega)]
    rw [readLE_writeBytes_low _ _ _ _ _
      (by rw [encodeIntArr_length, hl3]; exact tile_inner w3 p R hp)]
    rw [readLE_encodeIntArr w3 a3 p (by omega)]
    rw [toSigned_emod_width w3 hc3 _ (hf3 _ (getD_mem_of_lt a3 p (by omega))).1
      (hf3 _ (getD_mem_of_lt a3 p (by omega))).2]
  · rw [get_eq_toSigned t4 w4 hw4]
    rw [readLE_writeBytes_high _ _ _ _ _ (by omega)]
    rw [readLE_writeBytes_low _ _ _ _ _
      (by rw [encodeIntArr_length, hl4]; exact tile_inner w4 p R hp)]
    rw [readLE_encodeIntArr w4 a4 p (by omega)]
    rw [toSigned_emod_width w4 hc4 _ (hf4 _ (getD_mem_of_lt a4 p (by omega))).1
      (hf4 _ (getD_mem_of_lt a4 p (by omega))).2]
  · rw [get_eq_toSigned t5 w5 hw5]
    rw [readLE_writeBytes_low _ _ _ _ _
      (by rw [encodeIntArr_length, hl5]; exact tile_inner w5 p R hp)]
    rw [readLE_encodeIntArr w5 a5 p (by omega)]
    rw [toSigned_emod_width w5 hc5 _ (hf5 _ (getD_mem_of_lt a5 p (by omega))).1
      (hf5 _ (getD_mem_of_lt a5 p (by omega))).2]

/-! ### Peer loop and staging structure -/

theorem peerLoop_ok (env : Env) (E : Int) (db : DeviceBufferPair) (mem : Mem)
    (io ss oo rs : IntegerOperandData) (fio fss foo frs : Nat → Int) :
    ∀ peers : List Nat,
      (∀ p ∈ peers, io.get mem p = .value (fio p)) →
      (∀ p ∈ peers, ss.get mem p = .value (fss p)) →
      (∀ p ∈ peers, oo.get mem p = .value (foo p)) →
      (∀ p ∈ peers, rs.get mem p = .value (frs p)) →
      (∀ p ∈ peers, env.sendStatus p = .ok ()) →
      (∀ p ∈ peers, env.recvStatus p = .ok ()) →
      peerLoop env E db mem io ss oo rs peers =
        (peers.flatMap fun p =>
          [Event.send p db.source_buffer.bytes (fio p * E) (fss p * E),
           Event.recv p db.destination_buffer.bytes (foo p * E) (frs p * E)], .ok) := by
  intro peers
  induction peers with
  | nil => intro _ _ _ _ _ _; rfl
  | cons q qs ih =>
    intro h1 h2 h3 h4 h5 h6
    have := ih (fun p hp => h1 p (by simp [hp])) (fun p hp => h2 p (by simp [hp]))
      (fun p hp => h3 p (by simp [hp])) (fun p hp => h4 p (by simp [hp]))
      (fun p hp => h5 p (by simp [hp])) (fun p hp => h6 p (by simp [hp]))
    simp only [peerLoop, h1 q (by simp), h2 q (by simp), h3 q (by simp), h4 q (by simp),
      h5 q (by simp), h6 q (by simp), this]
    simp

theorem peerLoop_events_shape (env : Env) (E : Int) (db : DeviceBufferPair) (mem : Mem)
    (io ss oo rs : IntegerOperandData) :
    ∀ (peers : List Nat) (ev : Event), ev ∈ (peerLoop env E db mem io ss oo rs peers).1 →
      (∃ p o c, ev = Event.send p db.source_buffer.bytes o c) ∨
      (∃ p o c, ev = Event.recv p db.destination_buffer.bytes o c) := by
  intro peers
  induction peers with
  | nil => intro ev hev; simp [peerLoop] at hev
  | cons q qs ih =>
    intro ev hev
    unfold peerLoop at hev
    rcases hio : io.get mem q with v | _ <;> rw [hio] at hev
    case fatalCrash => simp at hev
    rcases hss : ss.get mem q with v2 | _ <;> rw [hss] at hev
    case fatalCrash => simp at hev
    rcases hoo : oo.get mem q with v3 | _ <;> rw [hoo] at hev
    case fatalCrash => simp at hev
    rcases hrs : rs.get mem q with v4 | _ <;> rw [hrs] at hev
    case fatalCrash => simp at hev
    simp only at hev
    rcases hsd : env.sendStatus q with e | u <;> rw [hsd] at hev
    · simp at hev
      subst hev
      exact Or.inl ⟨q, _, _, rfl⟩
    · rcases hrc : env.recvStatus q with e | u <;> rw [hrc] at hev
      · simp at hev
        rcases hev with h | h
        · subst h; exact Or.inl ⟨q, _, _, rfl⟩
        · subst h; exact Or.inr ⟨q, _, _, rfl⟩
      · rcases hrest : peerLoop env E db mem io ss oo rs qs with ⟨evs, out⟩
        rw [hrest] at hev
        simp at hev
        rcases hev with h | h | h
        · subst h; exact Or.inl ⟨q, _, _, rfl⟩
        · subst h; exact Or.inr ⟨q, _, _, rfl⟩
        · have := ih ev (by rw [hrest]; exact h)
          exact this

theorem peerLoop_ok_iff (env : Env) (E : Int) (db : DeviceBufferPair) (mem : Mem)
    (io ss oo rs : IntegerOperandData) :
    ∀ peers : List Nat,
      (∀ p ∈ peers, io.get mem p ≠ .fatalCrash ∧ ss.get mem p ≠ .fatalCrash ∧
        oo.get mem p ≠ .fatalCrash ∧ rs.get mem p ≠ .fatalCrash) →
      ((peerLoop env E db mem io ss oo rs peers).2 = .ok ↔
        ∀ p ∈ peers, env.sendStatus p = .ok () ∧ env.recvStatus p = .ok ()) := by
  intro peers
  induction peers with
  | nil => intro _; simp [peerLoop]
  | cons q qs ih =>
    intro hg
    have hq := hg q (by simp)
    rcases hio : io.get mem q with v | _
    case fatalCrash => exact absurd hio hq.1
    rcases hss : ss.get mem q with v2 | _
    case fatalCrash => exact absurd hss hq.2.1
    rcases hoo : oo.get mem q with v3 | _
    case fatalCrash => exact absurd hoo hq.2.2.1
    rcases hrs : rs.get mem q with v4 | _
    case fatalCrash => exact absurd hrs hq.2.2.2
    have ihq := ih (fun p hp => hg p (by simp [hp]))
    unfold peerLoop
    rw [hio, hss, hoo, hrs]
    simp only
    rcases hsd : env.sendStatus q with e | u
    · constructor
      · intro h; simp at h
      · intro h
        have := (h q (by simp)).1
        rw [hsd] at this
        exact absurd this (by simp)
    · rcases hrc : env.recvStatus q with e | u
      · constructor
        · intro h; simp at h
        · intro h
          have := (h q (by simp)).2
          rw [hrc] at this
          exact absurd this (by simp)
      · rcases hrest : peerLoop env E db mem io ss oo rs qs with ⟨evs, out⟩
        simp only
        rw [hrest] at ihq
        simp only at ihq
        constructor
        · intro h
          intro p hp
          rcases List.mem_cons.mp hp with rfl | hp2
          · exact ⟨hsd, hrc⟩
          · exact (ihq.mp h) p hp2
        · intro h
          exact ihq.mpr (fun p hp => h p (by simp [hp]))

theorem stageCopies_four (env : Env) (ne : Nat) (b2 b3 b4 b5 : DeviceBufferPair)
    (mem : Mem) (hmc : ∀ i, env.memcpyStatus i = .ok ()) :
    stageCopies env 0 ne [b2, b3, b4, b5] 0 mem =
      ([Event.memcpyD2H 0 b2.source_buffer.bytes,
        Event.memcpyD2H (ne * 8) b3.source_buffer.bytes,
        Event.memcpyD2H (ne * 8 + ne * 8) b4.source_buffer.bytes,
        Event.memcpyD2H (ne * 8 + ne * 8 + ne * 8) b5.source_buffer.bytes],
       writeBytes (writeBytes (writeBytes (writeBytes mem 0 b2.source_buffer.bytes)
         (ne * 8) b3.source_buffer.bytes) (ne * 8 + ne * 8) b4.source_buffer.bytes)
         (ne * 8 + ne * 8 + ne * 8) b5.source_buffer.bytes,
       .ok [⟨b2.element_type, 0⟩, ⟨b3.element_type, ne * 8⟩,
            ⟨b4.element_type, ne * 8 + ne * 8⟩,
            ⟨b5.element_type, ne * 8 + ne * 8 + ne * 8⟩]) := by
  simp [stageCopies, hmc, Except.map]

theorem load_four_ok (env : Env) (b0 b1 b2 b3 b4 b5 : DeviceBufferPair) (mem : Mem)
    (hmc : ∀ i, env.memcpyStatus i = .ok ()) (hblk : env.blockStatus = .ok ()) :
    LoadOffsetAndSizeOperands env [b0, b1, b2, b3, b4, b5] mem =
      ([Event.memcpyD2H 0 b2.source_buffer.bytes,
        Event.memcpyD2H (b2.element_count * 8) b3.source_buffer.bytes,
        Event.memcpyD2H (b2.element_count * 8 + b2.element_count * 8) b4.source_buffer.bytes,
        Event.memcpyD2H (b2.element_count * 8 + b2.element_count * 8 + b2.element_count * 8)
          b5.source_buffer.bytes,
        Event.blockHostUntilDone],
       writeBytes (writeBytes (writeBytes (writeBytes mem 0 b2.source_buffer.bytes)
         (b2.element_count * 8) b3.source_buffer.bytes)
         (b2.element_count * 8 + b2.element_count * 8) b4.source_buffer.bytes)
         (b2.element_count * 8 + b2.element_count * 8 + b2.element_count * 8)
         b5.source_buffer.bytes,
       .ok [⟨b2.element_type, 0⟩, ⟨b3.element_type, b2.element_count * 8⟩,
            ⟨b4.element_type, b2.element_count * 8 + b2.element_count * 8⟩,
            ⟨b5.element_type,
              b2.element_count * 8 + b2.element_count * 8 + b2.element_count * 8⟩]) := by
  unfold LoadOffsetAndSizeOperands
  simp only [List.getD, List.drop]
  rw [show ([b0, b1, b2, b3, b4, b5].get? 2).getD default = b2 from rfl]
  rw [stageCopies_four env b2.element_count b2 b3 b4 b5 mem hmc, hblk]
  rfl

theorem load_four_err (env : Env) (b0 b1 b2 b3 b4 b5 : DeviceBufferPair) (mem : Mem)
    (e : Err) (hmc : ∀ i, env.memcpyStatus i = .ok ()) (hblk : env.blockStatus = .error e) :
    LoadOffsetAndSizeOperands env [b0, b1, b2, b3, b4, b5] mem =
      ([Event.memcpyD2H 0 b2.source_buffer.bytes,
        Event.memcpyD2H (b2.element_count * 8) b3.source_buffer.bytes,
        Event.memcpyD2H (b2.element_count * 8 + b2.element_count * 8) b4.source_buffer.bytes,
        Event.memcpyD2H (b2.element_count * 8 + b2.element_count * 8 + b2.element_count * 8)
          b5.source_buffer.bytes,
        Event.blockHostUntilDone],
       writeBytes (writeBytes (writeBytes (writeBytes mem 0 b2.source_buffer.bytes)
         (b2.element_count * 8) b3.source_buffer.bytes)
         (b2.element_count * 8 + b2.element_count * 8) b4.source_buffer.bytes)
         (b2.element_count * 8 + b2.element_count * 8 + b2.element_count * 8)
         b5.source_buffer.bytes,
       .error ⟨.internal,
         "Failed to complete all kernels launched on stream: ".append e.msg⟩) := by
  unfold LoadOffsetAndSizeOperands
  simp only [List.getD, List.drop]
  rw [show ([b0, b1, b2, b3, b4, b5].get? 2).getD default = b2 from rfl]
  rw [stageCopies_four env b2.element_count b2 b3 b4 b5 mem hmc, hblk]
  rfl

/-! ### Association list lemmas for the staging cache -/

theorem lookup_append_of_none (l l2 : List (Nat × Nat)) (a : Nat)
    (h : l.lookup a = none) : (l ++ l2).lookup a = l2.lookup a := by
  induction l with
  | nil => rfl
  | cons kv l ih =>
    rcases kv with ⟨k, v⟩
    cases hab : (a == k) with
    | true => simp [List.lookup, hab] at h
    | false =>
      simp only [List.lookup, hab] at h
      simp only [List.cons_append, List.lookup, hab]
      exact ih h

theorem filter_eq_nil_of_lookup_none (l : List (Nat × Nat)) (a : Nat)
    (h : l.lookup a = none) : l.filter (fun e => e.1 == a) = [] := by
  induction l with
  | nil => rfl
  | cons kv l ih =>
    rcases kv with ⟨k, v⟩
    cases hab : (a == k) with
    | true => simp [List.lookup, hab] at h
    | false =>
      simp only [List.lookup, hab] at h
      have hk : (k == a) = false := by
        simp only [beq_eq_false_iff_ne] at hab ⊢
        exact fun hh => hab hh.symm
      simp [List.filter, hk, ih h]

/-! ### Claim theorems -/

/-- C3 counterexample: `IntegerOperandData::get` on an element type outside
the two supported widths (here `F32`) does *not* return a reported
internal-error value to the caller: it hits `LOG(FATAL)`, which terminates
the process, so no value of any kind is returned and the invocation is not
recoverable. -/
theorem get_unsupported_width_counterexample :
    (⟨PrimitiveType.F32, 0⟩ : IntegerOperandData).get memZero 0 = .fatalCrash ∧
    ∀ v : Int, (⟨PrimitiveType.F32, 0⟩ : IntegerOperandData).get memZero 0 ≠ .value v := by
  refine ⟨rfl, fun v h => ?_⟩
  simp [IntegerOperandData.get] at h

/-- C3 (amended): for every index `i`, `IntegerOperandData::get` returns a
decoded value exactly when the element type is one of the two supported
widths (32-bit or 64-bit, signed or unsigned); for every other element
type it hits `LOG(FATAL)` and aborts the process, returning neither a
value nor an error status to the caller. -/
theorem get_value_iff_supported_width (d : IntegerOperandData) (mem : Mem) (i : Nat) :
    ((∃ v, d.get mem i = .value v) ↔
      (d.element_type = .S32 ∨ d.element_type = .U32 ∨
       d.element_type = .S64 ∨ d.element_type = .U64)) ∧
    ((d.get mem i = .fatalCrash) ↔
      ¬ (d.element_type = .S32 ∨ d.element_type = .U32 ∨
         d.element_type = .S64 ∨ d.element_type = .U64)) := by
  rcases d with ⟨t, b⟩
  cases t <;> simp [IntegerOperandData.get]

/-- C5 counterexample: calling `RunNcclCollective` for a device with no
staging-cache entry (no successful `Initialize`) does not return an
internal/precondition error status: the `host_buffer_allocs_.at(...)`
lookup terminates the process (`Outcome.fatal`), which is distinct from
every `Outcome.error e`. -/
theorem run_without_init_counterexample :
    (NcclRaggedAllToAllStartThunk.RunNcclCollective (envAllOk 1) ⟨[], []⟩ 0 4 []
        memZero).2 = .fatal ∧
    ∀ e : Err, (Outcome.fatal : Outcome) ≠ Outcome.error e :=
  ⟨rfl, fun _ h => Outcome.noConfusion h⟩

/-- C5 (amended): fetching the staging region for a device on which
`Initialize` has not succeeded makes `RunNcclCollective` abort the process
(the `absl` map `.at()` fails on the missing key and never returns a
status); no Send/Recv work is started for that invocation. -/
theorem run_without_init_device_fatal (env : Env) (s : ThunkState) (device : Nat)
    (E : Int) (buffers : List DeviceBufferPair) (mem : Mem)
    (hcv : env.convertStatus = .ok ()) (hgc : env.getCollectivesStatus = .ok ())
    (hmiss : fetchHostBufferAlloc s device = none) :
    NcclRaggedAllToAllStartThunk.RunNcclCollective env s device E buffers mem =
      ([], .fatal) := by
  unfold NcclRaggedAllToAllStartThunk.RunNcclCollective
  rw [hcv, hgc, hmiss]

/-- Witness for the amended C5 theorem at a concrete uninitialized state. -/
theorem run_without_init_device_fatal_witness :
    fetchHostBufferAlloc ⟨[], []⟩ 0 = none ∧
    NcclRaggedAllToAllStartThunk.RunNcclCollective (envAllOk 1) ⟨[], []⟩ 0 4 [] memZero =
      ([], .fatal) :=
  ⟨rfl, run_without_init_device_fatal (envAllOk 1) ⟨[], []⟩ 0 4 [] memZero rfl rfl rfl⟩

/-- C6: `Read` on a narrow (32-bit) and a wide (64-bit) index array holding
identical logical values yields identical decoded 64-bit results (both
recover the logical value, for all values representable in both widths,
i.e. in the signed 32-bit range that the 32-bit extraction uses); and the
signed and unsigned variants of the same width are treated identically for
value extraction. -/
theorem read_narrow_wide_agree (vs : List Int) (i : Nat) (hi : i < vs.length)
    (hfit : ∀ x ∈ vs, -(2 ^ 31) ≤ x ∧ x < 2 ^ 31) :
    ((⟨.S32, 0⟩ : IntegerOperandData).get (bytesAt (encodeIntArr 4 vs)) i =
        .value (vs.getD i 0) ∧
     (⟨.S64, 0⟩ : IntegerOperandData).get (bytesAt (encodeIntArr 8 vs)) i =
        .value (vs.getD i 0)) ∧
    (∀ (m : Mem) (b j : Nat),
      (⟨.S32, b⟩ : IntegerOperandData).get m j = (⟨.U32, b⟩ : IntegerOperandData).get m j) ∧
    (∀ (m : Mem) (b j : Nat),
      (⟨.S64, b⟩ : IntegerOperandData).get m j = (⟨.U64, b⟩ : IntegerOperandData).get m j) := by
  have hv := hfit _ (getD_mem_of_lt vs i hi)
  refine ⟨⟨?_, ?_⟩, fun m b j => rfl, fun m b j => rfl⟩
  · rw [get_eq_toSigned .S32 4 rfl, Nat.zero_add, readLE_encodeIntArr 4 vs i hi]
    rw [toSigned_emod_width 4 (Or.inl rfl) _ hv.1 hv.2]
  · rw [get_eq_toSigned .S64 8 rfl, Nat.zero_add, readLE_encodeIntArr 8 vs i hi]
    rw [toSigned_emod_width 8 (Or.inr rfl) _ (by omega) (by omega)]

/-- Witness for C6 at a concrete three-element array. -/
theorem read_narrow_wide_agree_witness :
    ((1 : Nat) < ([5, -7, 12] : List Int).length ∧
      (∀ x ∈ ([5, -7, 12] : List Int), -(2 ^ 31) ≤ x ∧ x < 2 ^ 31)) ∧
    ((⟨.S32, 0⟩ : IntegerOperandData).get (bytesAt (encodeIntArr 4 [5, -7, 12])) 1 =
        .value (([5, -7, 12] : List Int).getD 1 0) ∧
     (⟨.S64, 0⟩ : IntegerOperandData).get (bytesAt (encodeIntArr 8 [5, -7, 12])) 1 =
        .value (([5, -7, 12] : List Int).getD 1 0)) :=
  ⟨⟨by decide, by decide⟩,
    (read_narrow_wide_agree [5, -7, 12] 1 (by decide) (by decide)).1⟩

/-- C7: `Initialize` is idempotent per device on the staging cache: from a
state with no entry for `d1` or `d2` (`d1 ≠ d2`), initializing `d1` twice
leaves exactly one cache entry for `d1` and performs exactly one host
allocation, of `4 * ragged_row_count * 8` bytes; initializing `d2` as well
yields two independent entries (distinct allocation ids), one allocation
each. -/
theorem thunk_init_idempotent (R : Nat) (s : ThunkState) (d1 d2 : Nat)
    (h1 : s.host_buffer_allocs.lookup d1 = none)
    (h2 : s.host_buffer_allocs.lookup d2 = none)
    (hd : d1 ≠ d2) :
    ∃ s1 s2 : ThunkState,
      NcclRaggedAllToAllStartThunk.InitializeState true R s d1 = .ok s1 ∧
      NcclRaggedAllToAllStartThunk.InitializeState true R s1 d1 = .ok s1 ∧
      (s1.host_buffer_allocs.filter (fun e => e.1 == d1)).length = 1 ∧
      s1.allocs = s.allocs ++ [4 * R * 8] ∧
      NcclRaggedAllToAllStartThunk.InitializeState true R s1 d2 = .ok s2 ∧
      (s2.host_buffer_allocs.filter (fun e => e.1 == d1)).length = 1 ∧
      (s2.host_buffer_allocs.filter (fun e => e.1 == d2)).length = 1 ∧
      s2.allocs = s.allocs ++ [4 * R * 8, 4 * R * 8] ∧
      s2.host_buffer_allocs.lookup d1 ≠ s2.host_buffer_allocs.lookup d2 := by
  have h21 : (d2 == d1) = false := by simp [Ne.symm hd]
  have h12 : (d1 == d2) = false := by simp [hd]
  refine ⟨⟨s.host_buffer_allocs ++ [(d1, s.allocs.length)], s.allocs ++ [4 * R * 8]⟩,
      ⟨(s.host_buffer_allocs ++ [(d1, s.allocs.length)]) ++ [(d2, s.allocs.length + 1)],
       (s.allocs ++ [4 * R * 8]) ++ [4 * R * 8]⟩, ?_, ?_, ?_, ?_, ?_, ?_, ?_, ?_, ?_⟩
  · unfold NcclRaggedAllToAllStartThunk.InitializeState
    rw [h1]
    rfl
  · unfold NcclRaggedAllToAllStartThunk.InitializeState
    simp only [lookup_append_of_none _ _ _ h1, List.lookup, beq_self_eq_true]
  · simp [List.filter_append, filter_eq_nil_of_lookup_none _ _ h1]
  · rfl
  · unfold NcclRaggedAllToAllStartThunk.InitializeState
    simp only [lookup_append_of_none _ _ _ h2, List.lookup, h21]
    simp
  · simp [List.filter_append, filter_eq_nil_of_lookup_none _ _ h1, h21]
  · simp [List.filter_append, filter_eq_nil_of_lookup_none _ _ h2, h12]
  · simp
  · simp only [List.append_assoc, lookup_append_of_none _ _ _ h1,
      lookup_append_of_none _ _ _ h2]
    simp [List.lookup, h21]

/-- Witness for C7 at a concrete empty cache and devices 0 and 1. -/
theorem thunk_init_idempotent_witness :
    ((⟨[], []⟩ : ThunkState).host_buffer_allocs.lookup 0 = none ∧
     (⟨[], []⟩ : ThunkState).host_buffer_allocs.lookup 1 = none ∧ (0 : Nat) ≠ 1) ∧
    ∃ s1 s2 : ThunkState,
      NcclRaggedAllToAllStartThunk.InitializeState true 3 ⟨[], []⟩ 0 = .ok s1 ∧
      NcclRaggedAllToAllStartThunk.InitializeState true 3 s1 0 = .ok s1 ∧
      (s1.host_buffer_allocs.filter (fun e => e.1 == 0)).length = 1 ∧
      s1.allocs = ([] : List Nat) ++ [4 * 3 * 8] ∧
      NcclRaggedAllToAllStartThunk.InitializeState true 3 s1 1 = .ok s2 ∧
      (s2.host_buffer_allocs.filter (fun e => e.1 == 0)).length = 1 ∧
      (s2.host_buffer_allocs.filter (fun e => e.1 == 1)).length = 1 ∧
      s2.allocs = ([] : List Nat) ++ [4 * 3 * 8, 4 * 3 * 8] ∧
      s2.host_buffer_allocs.lookup 0 ≠ s2.host_buffer_allocs.lookup 1 :=
  ⟨⟨rfl, rfl, by decide⟩, thunk_init_idempotent 3 ⟨[], []⟩ 0 1 rfl rfl (by decide)⟩

theorem checkOperandsLoop_append_ok (valid : Shape → Bool) (pre : List Shape)
    (h : ∀ s ∈ pre, valid s = true) (rest : List Shape) :
    checkOperandsLoop valid (pre ++ rest) = checkOperandsLoop valid rest := by
  induction pre with
  | nil => rfl
  | cons sh pre ih =>
    have hsh := h sh (by simp)
    simp only [List.cons_append, checkOperandsLoop, IsValidOperand, hsh, if_true]
    exact ih (fun s hs => h s (by simp [hs]))

/-- C9: `CheckImplementable` validates every operand shape; if all operands
are acceptable it returns success; on the first unacceptable operand it
returns an `InvalidArgument`-class error naming that operand, and the
result does not depend on any operand after the first failure (fail-fast).
It is a pure (static) function of the operands.  (`IsValidOperand` /
`AddOpDescription` live in the shared collective layer outside the
examined source and are modelled from the spec.) -/
theorem check_implementable_fail_fast (valid : Shape → Bool) (opDescription : String)
    (replica_count partition_count : Int) :
    (∀ operands : List Shape, (∀ sh ∈ operands, valid sh = true) →
        NcclRaggedAllToAllStartThunk.CheckImplementable valid operands opDescription
          replica_count partition_count = .ok ()) ∧
    (∀ (pre : List Shape) (sh : Shape) (post : List Shape),
        (∀ s ∈ pre, valid s = true) → valid sh = false →
        (NcclRaggedAllToAllStartThunk.CheckImplementable valid (pre ++ sh :: post)
            opDescription replica_count partition_count =
          .error ⟨.invalidArgument,
            (("invalid operand shape: ".append sh.descr).append "; op: ").append
              opDescription⟩) ∧
        ∀ post2 : List Shape,
          NcclRaggedAllToAllStartThunk.CheckImplementable valid (pre ++ sh :: post)
            opDescription replica_count partition_count =
          NcclRaggedAllToAllStartThunk.CheckImplementable valid (pre ++ sh :: post2)
            opDescription replica_count partition_count) := by
  constructor
  · intro operands h
    unfold NcclRaggedAllToAllStartThunk.CheckImplementable
    have := checkOperandsLoop_append_ok valid operands h []
    rw [List.append_nil] at this
    rw [this]
    rfl
  · intro pre sh post hpre hsh
    have hfail : ∀ post1 : List Shape,
        checkOperandsLoop valid (pre ++ sh :: post1) =
          .error ⟨.invalidArgument, "invalid operand shape: ".append sh.descr⟩ := by
      intro post1
      rw [checkOperandsLoop_append_ok valid pre hpre]
      simp [checkOperandsLoop, IsValidOperand, hsh]
    constructor
    · unfold NcclRaggedAllToAllStartThunk.CheckImplementable
      rw [hfail post]
      rfl
    · intro post2
      unfold NcclRaggedAllToAllStartThunk.CheckImplementable
      rw [hfail post, hfail post2]

/-- Witness for C9: a concrete two-operand list whose second operand is
invalid, plus a fully valid list. -/
theorem check_implementable_fail_fast_witness :
    ((∀ sh ∈ [Shape.mk "a"], (fun s : Shape => s.descr == "a") sh = true) ∧
      (fun s : Shape => s.descr == "a") (Shape.mk "b") = false) ∧
    NcclRaggedAllToAllStartThunk.CheckImplementable (fun s : Shape => s.descr == "a")
        ([Shape.mk "a"] ++ Shape.mk "b" :: [Shape.mk "c"]) "myop" 2 1 =
      .error ⟨.invalidArgument,
        (("invalid operand shape: ".append "b").append "; op: ").append "myop"⟩ := by
  refine ⟨⟨by decide, by decide⟩, ?_⟩
  exact ((check_implementable_fail_fast (fun s : Shape => s.descr == "a") "myop" 2 1).2
    [Shape.mk "a"] (Shape.mk "b") [Shape.mk "c"] (by decide) (by decide)).1

theorem run_groupStart_err (env : Env) (E : Int) (bufs : List DeviceBufferPair)
    (mem : Mem) (N : Nat) (evs : List Event) (memLast : Mem)
    (idx : List IntegerOperandData) (e : Err)
    (hreg : env.registerStatus = .ok ()) (hnum : env.numRanks = .ok N)
    (hload : LoadOffsetAndSizeOperands env bufs mem = (evs, memLast, .ok idx))
    (hgs : env.groupStartStatus = .error e) :
    RunRaggedAllToAll env E bufs mem = (evs ++ [Event.groupStart], .error e) := by
  simp only [RunRaggedAllToAll, hreg, hnum, hload, hgs]

theorem run_all_ok (env : Env) (E : Int) (bufs : List DeviceBufferPair)
    (mem : Mem) (N : Nat) (evs : List Event) (memLast : Mem)
    (idx : List IntegerOperandData) (loopEvs : List Event)
    (hreg : env.registerStatus = .ok ()) (hnum : env.numRanks = .ok N)
    (hload : LoadOffsetAndSizeOperands env bufs mem = (evs, memLast, .ok idx))
    (hgs : env.groupStartStatus = .ok ())
    (hpl : peerLoop env E (bufs.getD 0 default) memLast (idx.getD 0 default)
        (idx.getD 1 default) (idx.getD 2 default) (idx.getD 3 default)
        (List.range N) = (loopEvs, .ok))
    (hge : env.groupEndStatus = .ok ()) :
    RunRaggedAllToAll env E bufs mem =
      (evs ++ Event.groupStart :: (loopEvs ++ [Event.groupEnd]), .ok) := by
  simp only [RunRaggedAllToAll, hreg, hnum, hload, hgs]
  rw [hpl]
  simp only [hge]

theorem run_groupEnd_err (env : Env) (E : Int) (bufs : List DeviceBufferPair)
    (mem : Mem) (N : Nat) (evs : List Event) (memLast : Mem)
    (idx : List IntegerOperandData) (loopEvs : List Event) (e : Err)
    (hreg : env.registerStatus = .ok ()) (hnum : env.numRanks = .ok N)
    (hload : LoadOffsetAndSizeOperands env bufs mem = (evs, memLast, .ok idx))
    (hgs : env.groupStartStatus = .ok ())
    (hpl : peerLoop env E (bufs.getD 0 default) memLast (idx.getD 0 default)
        (idx.getD 1 default) (idx.getD 2 default) (idx.getD 3 default)
        (List.range N) = (loopEvs, .ok))
    (hge : env.groupEndStatus = .error e) :
    RunRaggedAllToAll env E bufs mem =
      (evs ++ Event.groupStart :: (loopEvs ++ [Event.groupEnd]), .error e) := by
  simp only [RunRaggedAllToAll, hreg, hnum, hload, hgs]
  rw [hpl]
  simp only [hge]

theorem run_loop_stops (env : Env) (E : Int) (bufs : List DeviceBufferPair)
    (mem : Mem) (N : Nat) (evs : List Event) (memLast : Mem)
    (idx : List IntegerOperandData) (loopEvs : List Event) (out : Outcome)
    (hreg : env.registerStatus = .ok ()) (hnum : env.numRanks = .ok N)
    (hload : LoadOffsetAndSizeOperands env bufs mem = (evs, memLast, .ok idx))
    (hgs : env.groupStartStatus = .ok ())
    (hpl : peerLoop env E (bufs.getD 0 default) memLast (idx.getD 0 default)
        (idx.getD 1 default) (idx.getD 2 default) (idx.getD 3 default)
        (List.range N) = (loopEvs, out))
    (hno : out ≠ .ok) :
    RunRaggedAllToAll env E bufs mem = (evs ++ Event.groupStart :: loopEvs, out) := by
  simp only [RunRaggedAllToAll, hreg, hnum, hload, hgs]
  rw [hpl]
  cases out with
  | ok => exact absurd rfl hno
  | error e => rfl
  | fatal => rfl

theorem run_trace_extends_load (env : Env) (E : Int) (bufs : List DeviceBufferPair)
    (mem : Mem) (N : Nat) (evs : List Event) (memLast : Mem)
    (idx : List IntegerOperandData)
    (hreg : env.registerStatus = .ok ()) (hnum : env.numRanks = .ok N)
    (hload : LoadOffsetAndSizeOperands env bufs mem = (evs, memLast, .ok idx)) :
    ∃ rest : List Event, (RunRaggedAllToAll env E bufs mem).1 = evs ++ rest := by
  rcases hpl : peerLoop env E (bufs.getD 0 default) memLast (idx.getD 0 default)
      (idx.getD 1 default) (idx.getD 2 default) (idx.getD 3 default)
      (List.range N) with ⟨loopEvs, out⟩
  rcases hgs : env.groupStartStatus with eg | ug
  · exact ⟨[Event.groupStart],
      by rw [run_groupStart_err env E bufs mem N evs memLast idx eg hreg hnum hload hgs]⟩
  · cases out with
    | ok =>
      rcases hge : env.groupEndStatus with ee | ue
      · exact ⟨Event.groupStart :: (loopEvs ++ [Event.groupEnd]),
          by rw [run_groupEnd_err env E bufs mem N evs memLast idx loopEvs ee hreg hnum
            hload hgs hpl hge]⟩
      · exact ⟨Event.groupStart :: (loopEvs ++ [Event.groupEnd]),
          by rw [run_all_ok env E bufs mem N evs memLast idx loopEvs hreg hnum
            hload hgs hpl hge]⟩
    | error e =>
      exact ⟨Event.groupStart :: loopEvs,
        by rw [run_loop_stops env E bufs mem N evs memLast idx loopEvs _ hreg hnum
          hload hgs hpl (by simp)]⟩
    | fatal =>
      exact ⟨Event.groupStart :: loopEvs,
        by rw [run_loop_stops env E bufs mem N evs memLast idx loopEvs _ hreg hnum
          hload hgs hpl (by simp)]⟩

/-- C2: whenever an invocation reaches the index-staging step (buffer
conversion, registration and the rank query succeeded, and all four
`Memcpy` calls were issued successfully), the blocking wait
(`BlockHostUntilDone`) happens immediately after the four device-to-host
staging copies and before any `Send`/`Recv` (and before `GroupStart`, and
before any slice is computed: slices exist only in the peer loop, which
lies entirely in `rest`); and if the blocking wait fails, the invocation
returns the wrapped internal error and issues no `Send` or `Recv` at all
(`rest = []`). -/
theorem wait_after_copies_before_transfers (env : Env) (E : Int)
    (b0 b1 b2 b3 b4 b5 : DeviceBufferPair) (mem : Mem) (N : Nat)
    (hreg : env.registerStatus = .ok ()) (hnum : env.numRanks = .ok N)
    (hmc : ∀ i, env.memcpyStatus i = .ok ()) :
    ∃ rest : List Event,
      (RunRaggedAllToAll env E [b0, b1, b2, b3, b4, b5] mem).1 =
        [Event.memcpyD2H 0 b2.source_buffer.bytes,
         Event.memcpyD2H (b2.element_count * 8) b3.source_buffer.bytes,
         Event.memcpyD2H (b2.element_count * 8 + b2.element_count * 8)
           b4.source_buffer.bytes,
         Event.memcpyD2H (b2.element_count * 8 + b2.element_count * 8 +
           b2.element_count * 8) b5.source_buffer.bytes,
         Event.blockHostUntilDone] ++ rest ∧
      (∀ e : Err, env.blockStatus = .error e →
        rest = [] ∧
        (RunRaggedAllToAll env E [b0, b1, b2, b3, b4, b5] mem).2 =
          .error ⟨.internal,
            "Failed to complete all kernels launched on stream: ".append e.msg⟩) := by
  rcases hblk : env.blockStatus with eb | u
  · have hload := load_four_err env b0 b1 b2 b3 b4 b5 mem eb hmc hblk
    have hrun : RunRaggedAllToAll env E [b0, b1, b2, b3, b4, b5] mem =
        ([Event.memcpyD2H 0 b2.source_buffer.bytes,
          Event.memcpyD2H (b2.element_count * 8) b3.source_buffer.bytes,
          Event.memcpyD2H (b2.element_count * 8 + b2.element_count * 8)
            b4.source_buffer.bytes,
          Event.memcpyD2H (b2.element_count * 8 + b2.element_count * 8 +
            b2.element_count * 8) b5.source_buffer.bytes,
          Event.blockHostUntilDone],
         .error ⟨.internal,
           "Failed to complete all kernels launched on stream: ".append eb.msg⟩) := by
      unfold RunRaggedAllToAll
      rw [hreg, hnum, hload]
    refine ⟨[], ?_, ?_⟩
    · rw [hrun]
      simp
    · intro e he
      injection he with he
      subst he
      exact ⟨rfl, by rw [hrun]⟩
  · have hload := load_four_ok env b0 b1 b2 b3 b4 b5 mem hmc hblk
    obtain ⟨rest, hrest⟩ := run_trace_extends_load env E [b0, b1, b2, b3, b4, b5] mem N
      _ _ _ hreg hnum hload
    refine ⟨rest, hrest, ?_⟩
    intro e he
    exact absurd he (by simp)

/-- Witness for C2 at a concrete failing blocking wait: with the wait
returning an error, the trace is exactly the four staging copies followed
by the wait, no `Send`/`Recv` is issued, and the invocation fails with the
wrapped internal error. -/
theorem wait_after_copies_before_transfers_witness :
    ∃ rest : List Event,
      (RunRaggedAllToAll
        ⟨.ok (), .ok (), .ok (), .ok 2, fun _ => .ok (),
         .error ⟨.generic, "wait failed"⟩, .ok (), fun _ => .ok (), fun _ => .ok (),
         .ok ()⟩ 4
        [default, default, default, default, default, default] memZero).1 =
        [Event.memcpyD2H 0 (default : DeviceBufferPair).source_buffer.bytes,
         Event.memcpyD2H ((default : DeviceBufferPair).element_count * 8)
           (default : DeviceBufferPair).source_buffer.bytes,
         Event.memcpyD2H ((default : DeviceBufferPair).element_count * 8 +
           (default : DeviceBufferPair).element_count * 8)
           (default : DeviceBufferPair).source_buffer.bytes,
         Event.memcpyD2H ((default : DeviceBufferPair).element_count * 8 +
           (default : DeviceBufferPair).element_count * 8 +
           (default : DeviceBufferPair).element_count * 8)
           (default : DeviceBufferPair).source_buffer.bytes,
         Event.blockHostUntilDone] ++ rest ∧
      (∀ e : Err,
        (⟨.ok (), .ok (), .ok (), .ok 2, fun _ => .ok (),
          .error ⟨.generic, "wait failed"⟩, .ok (), fun _ => .ok (), fun _ => .ok (),
          .ok ()⟩ : Env).blockStatus = .error e →
        rest = [] ∧
        (RunRaggedAllToAll
          ⟨.ok (), .ok (), .ok (), .ok 2, fun _ => .ok (),
           .error ⟨.generic, "wait failed"⟩, .ok (), fun _ => .ok (), fun _ => .ok (),
           .ok ()⟩ 4
          [default, default, default, default, default, default] memZero).2 =
          .error ⟨.internal,
            "Failed to complete all kernels launched on stream: ".append e.msg⟩) :=
  wait_after_copies_before_transfers
    ⟨.ok (), .ok (), .ok (), .ok 2, fun _ => .ok (),
     .error ⟨.generic, "wait failed"⟩, .ok (), fun _ => .ok (), fun _ => .ok (), .ok ()⟩
    4 default default default default default default memZero 2 rfl rfl (fun _ => rfl)

/-- C1: on a fully successful invocation, `RunRaggedAllToAll` enqueues, for
every peer `k < N` in strictly ascending order, exactly one `Send` and one
`Recv`: the send slice of the payload source buffer starts at element
`input_offsets[k] * row_element_count` and spans
`send_sizes[k] * row_element_count` elements, and the recv slice of the
payload destination buffer starts at `output_offsets[k] * row_element_count`
spanning `recv_sizes[k] * row_element_count` elements; zero-size peers are
enqueued like any other (no hypothesis excludes zero values). -/
theorem ragged_peer_slices (env : Env) (E : Int) (R N : Nat)
    (b0 b1 : DeviceBufferPair) (d2 d3 d4 d5 : DeviceMemory)
    (t2 t3 t4 t5 : PrimitiveType) (w2 w3 w4 w5 : Nat)
    (ioff ssz ooff rsz : List Int) (mem : Mem)
    (hw2 : intWidthBytes t2 = some w2) (hw3 : intWidthBytes t3 = some w3)
    (hw4 : intWidthBytes t4 = some w4) (hw5 : intWidthBytes t5 = some w5)
    (hl2 : ioff.length = R) (hl3 : ssz.length = R)
    (hl4 : ooff.length = R) (hl5 : rsz.length = R)
    (hN : N ≤ R)
    (hf2 : ∀ x ∈ ioff, -(2 ^ (8 * w2 - 1)) ≤ x ∧ x < 2 ^ (8 * w2 - 1))
    (hf3 : ∀ x ∈ ssz, -(2 ^ (8 * w3 - 1)) ≤ x ∧ x < 2 ^ (8 * w3 - 1))
    (hf4 : ∀ x ∈ ooff, -(2 ^ (8 * w4 - 1)) ≤ x ∧ x < 2 ^ (8 * w4 - 1))
    (hf5 : ∀ x ∈ rsz, -(2 ^ (8 * w5 - 1)) ≤ x ∧ x < 2 ^ (8 * w5 - 1))
    (hreg : env.registerStatus = .ok ()) (hnum : env.numRanks = .ok N)
    (hmc : ∀ i, env.memcpyStatus i = .ok ()) (hblk : env.blockStatus = .ok ())
    (hgs : env.groupStartStatus = .ok ()) (hge : env.groupEndStatus = .ok ())
    (hsend : ∀ p, env.sendStatus p = .ok ()) (hrecv : ∀ p, env.recvStatus p = .ok ()) :
    RunRaggedAllToAll env E
      [b0, b1, ⟨t2, R, ⟨encodeIntArr w2 ioff⟩, d2⟩, ⟨t3, R, ⟨encodeIntArr w3 ssz⟩, d3⟩,
       ⟨t4, R, ⟨encodeIntArr w4 ooff⟩, d4⟩, ⟨t5, R, ⟨encodeIntArr w5 rsz⟩, d5⟩] mem =
      ([Event.memcpyD2H 0 (encodeIntArr w2 ioff),
        Event.memcpyD2H (R * 8) (encodeIntArr w3 ssz),
        Event.memcpyD2H (R * 8 + R * 8) (encodeIntArr w4 ooff),
        Event.memcpyD2H (R * 8 + R * 8 + R * 8) (encodeIntArr w5 rsz),
        Event.blockHostUntilDone, Event.groupStart] ++
       ((List.range N).flatMap fun p =>
         [Event.send p b0.source_buffer.bytes (ioff.getD p 0 * E) (ssz.getD p 0 * E),
          Event.recv p b0.destination_buffer.bytes (ooff.getD p 0 * E) (rsz.getD p 0 * E)]) ++
       [Event.groupEnd], .ok) := by
  have hload : LoadOffsetAndSizeOperands env
      [b0, b1, ⟨t2, R, ⟨encodeIntArr w2 ioff⟩, d2⟩, ⟨t3, R, ⟨encodeIntArr w3 ssz⟩, d3⟩,
       ⟨t4, R, ⟨encodeIntArr w4 ooff⟩, d4⟩, ⟨t5, R, ⟨encodeIntArr w5 rsz⟩, d5⟩] mem =
      ([Event.memcpyD2H 0 (encodeIntArr w2 ioff),
        Event.memcpyD2H (R * 8) (encodeIntArr w3 ssz),
        Event.memcpyD2H (R * 8 + R * 8) (encodeIntArr w4 ooff),
        Event.memcpyD2H (R * 8 + R * 8 + R * 8) (encodeIntArr w5 rsz),
        Event.blockHostUntilDone],
       writeBytes (writeBytes (writeBytes (writeBytes mem 0 (encodeIntArr w2 ioff))
         (R * 8) (encodeIntArr w3 ssz)) (R * 8 + R * 8) (encodeIntArr w4 ooff))
         (R * 8 + R * 8 + R * 8) (encodeIntArr w5 rsz),
       .ok [⟨t2, 0⟩, ⟨t3, R * 8⟩, ⟨t4, R * 8 + R * 8⟩, ⟨t5, R * 8 + R * 8 + R * 8⟩]) := by
    rw [load_four_ok env b0 b1 _ _ _ _ mem hmc hblk]
  have hget := staged_get mem R t2 t3 t4 t5 w2 w3 w4 w5 hw2 hw3 hw4 hw5
    ioff ssz ooff rsz hl2 hl3 hl4 hl5 hf2 hf3 hf4 hf5
  have hpl := peerLoop_ok env E
    (([b0, b1, ⟨t2, R, ⟨encodeIntArr w2 ioff⟩, d2⟩, ⟨t3, R, ⟨encodeIntArr w3 ssz⟩, d3⟩,
       ⟨t4, R, ⟨encodeIntArr w4 ooff⟩, d4⟩, ⟨t5, R, ⟨encodeIntArr w5 rsz⟩, d5⟩] :
        List DeviceBufferPair).getD 0 default)
    (writeBytes (writeBytes (writeBytes (writeBytes mem 0 (encodeIntArr w2 ioff))
      (R * 8) (encodeIntArr w3 ssz)) (R * 8 + R * 8) (encodeIntArr w4 ooff))
      (R * 8 + R * 8 + R * 8) (encodeIntArr w5 rsz))
    (([⟨t2, 0⟩, ⟨t3, R * 8⟩, ⟨t4, R * 8 + R * 8⟩, ⟨t5, R * 8 + R * 8 + R * 8⟩] :
        List IntegerOperandData).getD 0 default)
    (([⟨t2, 0⟩, ⟨t3, R * 8⟩, ⟨t4, R * 8 + R * 8⟩, ⟨t5, R * 8 + R * 8 + R * 8⟩] :
        List IntegerOperandData).getD 1 default)
    (([⟨t2, 0⟩, ⟨t3, R * 8⟩, ⟨t4, R * 8 + R * 8⟩, ⟨t5, R * 8 + R * 8 + R * 8⟩] :
        List IntegerOperandData).getD 2 default)
    (([⟨t2, 0⟩, ⟨t3, R * 8⟩, ⟨t4, R * 8 + R * 8⟩, ⟨t5, R * 8 + R * 8 + R * 8⟩] :
        List IntegerOperandData).getD 3 default)
    (fun p => ioff.getD p 0) (fun p => ssz.getD p 0)
    (fun p => ooff.getD p 0) (fun p => rsz.getD p 0)
    (List.range N)
    (fun p hp => (hget p (lt_of_lt_of_le (List.mem_range.mp hp) hN)).1)
    (fun p hp => (hget p (lt_of_lt_of_le (List.mem_range.mp hp) hN)).2.1)
    (fun p hp => (hget p (lt_of_lt_of_le (List.mem_range.mp hp) hN)).2.2.1)
    (fun p hp => (hget p (lt_of_lt_of_le (List.mem_range.mp hp) hN)).2.2.2)
    (fun p _ => hsend p) (fun p _ => hrecv p)
  rw [run_all_ok env E _ mem N _ _ _ _ hreg hnum hload hgs hpl hge]
  simp

/-- Witness for C1: the spec scenario R = 3, N = 2,
`input_offsets = [0, 2]`, `send_sizes = [2, 1]`, `output_offsets = [1, 0]`,
`recv_sizes = [1, 2]` (third row unused), `row_element_count = 4`:
peer 0's send covers elements 0..7, peer 1's send covers 8..11, peer 0's
recv writes destination elements 4..7, peer 1's recv writes 0..7. -/
theorem ragged_peer_slices_witness :
    ((2 : Nat) ≤ 3 ∧
     (∀ x ∈ ([0, 2, 0] : List Int), -(2 ^ (8 * 8 - 1)) ≤ x ∧ x < 2 ^ (8 * 8 - 1)) ∧
     (∀ x ∈ ([2, 1, 0] : List Int), -(2 ^ (8 * 8 - 1)) ≤ x ∧ x < 2 ^ (8 * 8 - 1)) ∧
     (∀ x ∈ ([1, 0, 0] : List Int), -(2 ^ (8 * 8 - 1)) ≤ x ∧ x < 2 ^ (8 * 8 - 1)) ∧
     (∀ x ∈ ([1, 2, 0] : List Int), -(2 ^ (8 * 8 - 1)) ≤ x ∧ x < 2 ^ (8 * 8 - 1))) ∧
    RunRaggedAllToAll (envAllOk 2) 4
      [⟨.F32, 12, ⟨[1, 2, 3]⟩, ⟨[4, 5, 6]⟩⟩, default,
       ⟨.S64, 3, ⟨encodeIntArr 8 [0, 2, 0]⟩, ⟨[]⟩⟩,
       ⟨.S64, 3, ⟨encodeIntArr 8 [2, 1, 0]⟩, ⟨[]⟩⟩,
       ⟨.S64, 3, ⟨encodeIntArr 8 [1, 0, 0]⟩, ⟨[]⟩⟩,
       ⟨.S64, 3, ⟨encodeIntArr 8 [1, 2, 0]⟩, ⟨[]⟩⟩] memZero =
      ([Event.memcpyD2H 0 (encodeIntArr 8 [0, 2, 0]),
        Event.memcpyD2H 24 (encodeIntArr 8 [2, 1, 0]),
        Event.memcpyD2H 48 (encodeIntArr 8 [1, 0, 0]),
        Event.memcpyD2H 72 (encodeIntArr 8 [1, 2, 0]),
        Event.blockHostUntilDone, Event.groupStart,
        Event.send 0 [1, 2, 3] 0 8, Event.recv 0 [4, 5, 6] 4 4,
        Event.send 1 [1, 2, 3] 8 4, Event.recv 1 [4, 5, 6] 0 8,
        Event.groupEnd], .ok) := by
  refine ⟨⟨by norm_num, by decide, by decide, by decide, by decide⟩, ?_⟩
  rw [ragged_peer_slices (envAllOk 2) 4 3 2 ⟨.F32, 12, ⟨[1, 2, 3]⟩, ⟨[4, 5, 6]⟩⟩ default
    ⟨[]⟩ ⟨[]⟩ ⟨[]⟩ ⟨[]⟩ .S64 .S64 .S64 .S64 8 8 8 8
    [0, 2, 0] [2, 1, 0] [1, 0, 0] [1, 2, 0] memZero rfl rfl rfl rfl rfl rfl rfl rfl
    (by norm_num) (by decide) (by decide) (by decide) (by decide)
    rfl rfl (fun _ => rfl) rfl rfl rfl (fun _ => rfl) (fun _ => rfl)]
  decide

theorem run_register_err (env : Env) (E : Int) (bufs : List DeviceBufferPair)
    (mem : Mem) (e : Err) (hreg : env.registerStatus = .error e) :
    RunRaggedAllToAll env E bufs mem = ([], .error e) := by
  simp only [RunRaggedAllToAll, hreg]

theorem run_numranks_err (env : Env) (E : Int) (bufs : List DeviceBufferPair)
    (mem : Mem) (e : Err) (hreg : env.registerStatus = .ok ())
    (hnum : env.numRanks = .error e) :
    RunRaggedAllToAll env E bufs mem = ([], .error e) := by
  simp only [RunRaggedAllToAll, hreg, hnum]

theorem run_load_err (env : Env) (E : Int) (bufs : List DeviceBufferPair)
    (mem : Mem) (N : Nat) (evs : List Event) (memLast : Mem) (e : Err)
    (hreg : env.registerStatus = .ok ()) (hnum : env.numRanks = .ok N)
    (hload : LoadOffsetAndSizeOperands env bufs mem = (evs, memLast, .error e)) :
    RunRaggedAllToAll env E bufs mem = (evs, .error e) := by
  simp only [RunRaggedAllToAll, hreg, hnum, hload]

theorem stageCopies_events_memcpy (env : Env) (ne : Nat) :
    ∀ (bufs : List DeviceBufferPair) (i base : Nat) (mem : Mem) (ev : Event),
      ev ∈ (stageCopies env i ne bufs base mem).1 → ∃ o bs, ev = Event.memcpyD2H o bs := by
  intro bufs
  induction bufs with
  | nil => intro i base mem ev hev; simp [stageCopies] at hev
  | cons b rest ih =>
    intro i base mem ev hev
    unfold stageCopies at hev
    rcases hst : env.memcpyStatus i with e | u <;> rw [hst] at hev
    · simp at hev
    · simp only [] at hev
      rcases hrec : stageCopies env (i + 1) ne rest (base + ne * 8)
          (writeBytes mem base b.source_buffer.bytes) with ⟨evs, memLast, r⟩
      rw [hrec] at hev
      simp at hev
      rcases hev with h | h
      · exact ⟨base, b.source_buffer.bytes, h⟩
      · exact ih (i + 1) (base + ne * 8) (writeBytes mem base b.source_buffer.bytes) ev
          (by rw [hrec]; exact h)

theorem load_events_memcpy_or_block (env : Env) (bufs : List DeviceBufferPair)
    (mem : Mem) (ev : Event) :
    ev ∈ (LoadOffsetAndSizeOperands env bufs mem).1 →
      (∃ o bs, ev = Event.memcpyD2H o bs) ∨ ev = Event.blockHostUntilDone := by
  intro hev
  unfold LoadOffsetAndSizeOperands at hev
  simp only [] at hev
  rcases hst : stageCopies env 0 ((bufs.getD 2 default).element_count) (bufs.drop 2) 0 mem
    with ⟨evs, memLast, r⟩
  rw [hst] at hev
  have hstage := fun ev2 h2 => stageCopies_events_memcpy env
    ((bufs.getD 2 default).element_count) (bufs.drop 2) 0 0 mem ev2 (by rw [hst]; exact h2)
  cases r with
  | error e =>
    simp only at hev
    exact Or.inl (hstage ev hev)
  | ok idx =>
    rcases hblk : env.blockStatus with eb | u <;> rw [hblk] at hev <;> simp at hev <;>
      rcases hev with h | h
    · exact Or.inl (hstage ev h)
    · exact Or.inr h
    · exact Or.inl (hstage ev h)
    · exact Or.inr h

theorem run_trace_decomp (env : Env) (E : Int) (bufs : List DeviceBufferPair) (mem : Mem) :
    ∃ evs tail : List Event,
      (RunRaggedAllToAll env E bufs mem).1 = evs ++ tail ∧
      (∀ ev ∈ evs, (∃ o bs, ev = Event.memcpyD2H o bs) ∨ ev = Event.blockHostUntilDone) ∧
      (∀ ev ∈ tail,
        ev = Event.groupStart ∨ ev = Event.groupEnd ∨
        (∃ p o c, ev = Event.send p (bufs.getD 0 default).source_buffer.bytes o c) ∨
        (∃ p o c, ev = Event.recv p (bufs.getD 0 default).destination_buffer.bytes o c)) := by
  rcases hreg : env.registerStatus with e | u
  · exact ⟨[], [], by rw [run_register_err env E bufs mem e hreg]; simp, by simp, by simp⟩
  rcases hnum : env.numRanks with e | N
  · exact ⟨[], [],
      by rw [run_numranks_err env E bufs mem e hreg hnum]; simp, by simp, by simp⟩
  rcases hload : LoadOffsetAndSizeOperands env bufs mem with ⟨evs, memLast, r⟩
  have hloadev : ∀ ev ∈ evs,
      (∃ o bs, ev = Event.memcpyD2H o bs) ∨ ev = Event.blockHostUntilDone := by
    intro ev hev
    exact load_events_memcpy_or_block env bufs mem ev (by rw [hload]; exact hev)
  cases r with
  | error e =>
    exact ⟨evs, [], by rw [run_load_err env E bufs mem N evs memLast e hreg hnum hload]; simp,
      hloadev, by simp⟩
  | ok idx =>
    rcases hgs : env.groupStartStatus with eg | ug
    · refine ⟨evs, [Event.groupStart], ?_, hloadev, ?_⟩
      · rw [run_groupStart_err env E bufs mem N evs memLast idx eg hreg hnum hload hgs]
      · simp
    · rcases hpl : peerLoop env E (bufs.getD 0 default) memLast (idx.getD 0 default)
          (idx.getD 1 default) (idx.getD 2 default) (idx.getD 3 default)
          (List.range N) with ⟨loopEvs, out⟩
      have hshape : ∀ ev ∈ loopEvs,
          (∃ p o c, ev = Event.send p (bufs.getD 0 default).source_buffer.bytes o c) ∨
          (∃ p o c, ev = Event.recv p (bufs.getD 0 default).destination_buffer.bytes o c) := by
        intro ev hev
        exact peerLoop_events_shape env E (bufs.getD 0 default) memLast
          (idx.getD 0 default) (idx.getD 1 default) (idx.getD 2 default)
          (idx.getD 3 default) (List.range N) ev (by rw [hpl]; exact hev)
      have htail : ∀ ev ∈ Event.groupStart :: (loopEvs ++ [Event.groupEnd]),
          ev = Event.groupStart ∨ ev = Event.groupEnd ∨
          (∃ p o c, ev = Event.send p (bufs.getD 0 default).source_buffer.bytes o c) ∨
          (∃ p o c, ev = Event.recv p (bufs.getD 0 default).destination_buffer.bytes o c) := by
        intro ev hev
        simp at hev
        rcases hev with rfl | h | rfl
        · exact Or.inl rfl
        · exact Or.inr (Or.inr (hshape ev h))
        · exact Or.inr (Or.inl rfl)
      cases out with
      | ok =>
        rcases hge : env.groupEndStatus with ee | ue
        · exact ⟨evs, Event.groupStart :: (loopEvs ++ [Event.groupEnd]),
            by rw [run_groupEnd_err env E bufs mem N evs memLast idx loopEvs ee hreg hnum
              hload hgs hpl hge], hloadev, htail⟩
        · exact ⟨evs, Event.groupStart :: (loopEvs ++ [Event.groupEnd]),
            by rw [run_all_ok env E bufs mem N evs memLast idx loopEvs hreg hnum
              hload hgs hpl hge], hloadev, htail⟩
      | error e =>
        refine ⟨evs, Event.groupStart :: loopEvs,
          by rw [run_loop_stops env E bufs mem N evs memLast idx loopEvs _ hreg hnum
            hload hgs hpl (by simp)], hloadev, ?_⟩
        intro ev hev
        simp at hev
        rcases hev with rfl | h
        · exact Or.inl rfl
        · exact Or.inr (Or.inr (hshape ev h))
      | fatal =>
        refine ⟨evs, Event.groupStart :: loopEvs,
          by rw [run_loop_stops env E bufs mem N evs memLast idx loopEvs _ hreg hnum
            hload hgs hpl (by simp)], hloadev, ?_⟩
        intro ev hev
        simp at hev
        rcases hev with rfl | h
        · exact Or.inl rfl
        · exact Or.inr (Or.inr (hshape ev h))

/-- C4 counterexample: the staging loop starts at buffer position 2, so the
staged index operands carry the element types of positions 2..5 — not of
positions 1..4 as the claim states (here the two type lists differ); and
with only five bindings the loop would stage just three index arrays, so
five bindings cannot carry the four index arrays. -/
theorem staged_positions_counterexample :
    (LoadOffsetAndSizeOperands (envAllOk 2)
        [⟨.F32, 12, ⟨[]⟩, ⟨[]⟩⟩, ⟨.S32, 3, ⟨[]⟩, ⟨[]⟩⟩, ⟨.S64, 3, ⟨[]⟩, ⟨[]⟩⟩,
         ⟨.S32, 3, ⟨[]⟩, ⟨[]⟩⟩, ⟨.U32, 3, ⟨[]⟩, ⟨[]⟩⟩, ⟨.U64, 3, ⟨[]⟩, ⟨[]⟩⟩]
        memZero).2.2 =
      .ok [⟨.S64, 0⟩, ⟨.S32, 24⟩, ⟨.U32, 48⟩, ⟨.U64, 72⟩] ∧
    ([PrimitiveType.S64, .S32, .U32, .U64] ≠ [PrimitiveType.S32, .S64, .S32, .U32]) ∧
    (LoadOffsetAndSizeOperands (envAllOk 2)
        [⟨.F32, 12, ⟨[]⟩, ⟨[]⟩⟩, ⟨.S32, 3, ⟨[]⟩, ⟨[]⟩⟩, ⟨.S64, 3, ⟨[]⟩, ⟨[]⟩⟩,
         ⟨.S32, 3, ⟨[]⟩, ⟨[]⟩⟩, ⟨.U32, 3, ⟨[]⟩, ⟨[]⟩⟩] memZero).2.2 =
      .ok [⟨.S64, 0⟩, ⟨.S32, 24⟩, ⟨.U32, 48⟩] := by
  refine ⟨rfl, by decide, rfl⟩

/-- C4 (amended): the bindings consumed number six (one per operand of the
ragged-all-to-all instruction); position 0 is the payload — every send
slice is taken from its source buffer and every recv slice from its
destination buffer — and the four index arrays staged to the host are the
bindings at positions 2 through 5, staged in that order into the host
buffer (these staged operands become, respectively, `input_offsets`,
`send_sizes`, `output_offsets`, `recv_sizes`). -/
theorem staged_positions (env : Env) (E : Int)
    (b0 b1 b2 b3 b4 b5 : DeviceBufferPair) (mem : Mem)
    (hmc : ∀ i, env.memcpyStatus i = .ok ()) (hblk : env.blockStatus = .ok ()) :
    ((LoadOffsetAndSizeOperands env [b0, b1, b2, b3, b4, b5] mem).1 =
      [Event.memcpyD2H 0 b2.source_buffer.bytes,
       Event.memcpyD2H (b2.element_count * 8) b3.source_buffer.bytes,
       Event.memcpyD2H (b2.element_count * 8 + b2.element_count * 8)
         b4.source_buffer.bytes,
       Event.memcpyD2H (b2.element_count * 8 + b2.element_count * 8 +
         b2.element_count * 8) b5.source_buffer.bytes,
       Event.blockHostUntilDone]) ∧
    ((LoadOffsetAndSizeOperands env [b0, b1, b2, b3, b4, b5] mem).2.2 =
      .ok [⟨b2.element_type, 0⟩, ⟨b3.element_type, b2.element_count * 8⟩,
           ⟨b4.element_type, b2.element_count * 8 + b2.element_count * 8⟩,
           ⟨b5.element_type, b2.element_count * 8 + b2.element_count * 8 +
             b2.element_count * 8⟩]) ∧
    (∀ p src o c, Event.send p src o c ∈
        (RunRaggedAllToAll env E [b0, b1, b2, b3, b4, b5] mem).1 →
      src = b0.source_buffer.bytes) ∧
    (∀ p dst o c, Event.recv p dst o c ∈
        (RunRaggedAllToAll env E [b0, b1, b2, b3, b4, b5] mem).1 →
      dst = b0.destination_buffer.bytes) := by
  have hload := load_four_ok env b0 b1 b2 b3 b4 b5 mem hmc hblk
  obtain ⟨evs, tail, htr, hevs, htail⟩ :=
    run_trace_decomp env E [b0, b1, b2, b3, b4, b5] mem
  refine ⟨by rw [hload], by rw [hload], ?_, ?_⟩
  · intro p src o c hev
    rw [htr] at hev
    rcases List.mem_append.mp hev with h | h
    · rcases hevs _ h with ⟨o2, bs2, h2⟩ | h2 <;> simp at h2
    · rcases htail _ h with h2 | h2 | ⟨p2, o2, c2, h2⟩ | ⟨p2, o2, c2, h2⟩
      · simp at h2
      · simp at h2
      · simp at h2
        exact h2.2.1
      · simp at h2
  · intro p dst o c hev
    rw [htr] at hev
    rcases List.mem_append.mp hev with h | h
    · rcases hevs _ h with ⟨o2, bs2, h2⟩ | h2 <;> simp at h2
    · rcases htail _ h with h2 | h2 | ⟨p2, o2, c2, h2⟩ | ⟨p2, o2, c2, h2⟩
      · simp at h2
      · simp at h2
      · simp at h2
      · simp at h2
        exact h2.2.1

/-- Witness for the amended C4 theorem at concrete six-element bindings. -/
theorem staged_positions_witness :
    ((∀ i, (envAllOk 2).memcpyStatus i = .ok ()) ∧
      (envAllOk 2).blockStatus = .ok ()) ∧
    (LoadOffsetAndSizeOperands (envAllOk 2)
        [⟨.F32, 12, ⟨[]⟩, ⟨[]⟩⟩, ⟨.S32, 3, ⟨[]⟩, ⟨[]⟩⟩, ⟨.S64, 3, ⟨[]⟩, ⟨[]⟩⟩,
         ⟨.S32, 3, ⟨[]⟩, ⟨[]⟩⟩, ⟨.U32, 3, ⟨[]⟩, ⟨[]⟩⟩, ⟨.U64, 3, ⟨[]⟩, ⟨[]⟩⟩]
        memZero).1 =
      [Event.memcpyD2H 0 [], Event.memcpyD2H 24 [], Event.memcpyD2H 48 [],
       Event.memcpyD2H 72 [], Event.blockHostUntilDone] :=
  ⟨⟨fun _ => rfl, rfl⟩,
    (staged_positions (envAllOk 2) 4
      ⟨.F32, 12, ⟨[]⟩, ⟨[]⟩⟩ ⟨.S32, 3, ⟨[]⟩, ⟨[]⟩⟩ ⟨.S64, 3, ⟨[]⟩, ⟨[]⟩⟩
      ⟨.S32, 3, ⟨[]⟩, ⟨[]⟩⟩ ⟨.U32, 3, ⟨[]⟩, ⟨[]⟩⟩ ⟨.U64, 3, ⟨[]⟩, ⟨[]⟩⟩
      memZero (fun _ => rfl) rfl).1⟩

theorem primitiveByteWidth_le_8 (t : PrimitiveType) : primitiveByteWidth t ≤ 8 := by
  cases t <;> simp [primitiveByteWidth]

theorem count_groups_zero_of_shape (sb db : List Nat) (l : List Event)
    (h : ∀ ev ∈ l, (∃ p o c, ev = Event.send p sb o c) ∨
      (∃ p o c, ev = Event.recv p db o c)) :
    l.count Event.groupStart = 0 ∧ l.count Event.groupEnd = 0 := by
  constructor <;> rw [List.count_eq_zero] <;> intro hmem <;>
    rcases h _ hmem with ⟨p, o, c, h2⟩ | ⟨p, o, c, h2⟩ <;> simp at h2

/-- C8 counterexample: when a `Send` inside the batching scope fails, the
function returns (with that error) on a path where the `GroupStart` call
is not matched by any `GroupEnd` call — the trace contains one
`GroupStart` and zero `GroupEnd`. -/
theorem group_scope_counterexample :
    (RunRaggedAllToAll
        ⟨.ok (), .ok (), .ok (), .ok 1, fun _ => .ok (), .ok (), .ok (),
         fun _ => .error ⟨.generic, "send failed"⟩, fun _ => .ok (), .ok ()⟩ 4
        [⟨.F32, 4, ⟨[]⟩, ⟨[]⟩⟩, ⟨.F32, 4, ⟨[]⟩, ⟨[]⟩⟩,
         ⟨.S64, 1, ⟨encodeIntArr 8 [0]⟩, ⟨[]⟩⟩, ⟨.S64, 1, ⟨encodeIntArr 8 [0]⟩, ⟨[]⟩⟩,
         ⟨.S64, 1, ⟨encodeIntArr 8 [0]⟩, ⟨[]⟩⟩, ⟨.S64, 1, ⟨encodeIntArr 8 [0]⟩, ⟨[]⟩⟩]
        memZero).1.count Event.groupStart = 1 ∧
    (RunRaggedAllToAll
        ⟨.ok (), .ok (), .ok (), .ok 1, fun _ => .ok (), .ok (), .ok (),
         fun _ => .error ⟨.generic, "send failed"⟩, fun _ => .ok (), .ok ()⟩ 4
        [⟨.F32, 4, ⟨[]⟩, ⟨[]⟩⟩, ⟨.F32, 4, ⟨[]⟩, ⟨[]⟩⟩,
         ⟨.S64, 1, ⟨encodeIntArr 8 [0]⟩, ⟨[]⟩⟩, ⟨.S64, 1, ⟨encodeIntArr 8 [0]⟩, ⟨[]⟩⟩,
         ⟨.S64, 1, ⟨encodeIntArr 8 [0]⟩, ⟨[]⟩⟩, ⟨.S64, 1, ⟨encodeIntArr 8 [0]⟩, ⟨[]⟩⟩]
        memZero).1.count Event.groupEnd = 0 ∧
    (RunRaggedAllToAll
        ⟨.ok (), .ok (), .ok (), .ok 1, fun _ => .ok (), .ok (), .ok (),
         fun _ => .error ⟨.generic, "send failed"⟩, fun _ => .ok (), .ok ()⟩ 4
        [⟨.F32, 4, ⟨[]⟩, ⟨[]⟩⟩, ⟨.F32, 4, ⟨[]⟩, ⟨[]⟩⟩,
         ⟨.S64, 1, ⟨encodeIntArr 8 [0]⟩, ⟨[]⟩⟩, ⟨.S64, 1, ⟨encodeIntArr 8 [0]⟩, ⟨[]⟩⟩,
         ⟨.S64, 1, ⟨encodeIntArr 8 [0]⟩, ⟨[]⟩⟩, ⟨.S64, 1, ⟨encodeIntArr 8 [0]⟩, ⟨[]⟩⟩]
        memZero).2 = .error ⟨.generic, "send failed"⟩ := by
  refine ⟨by decide, by decide, rfl⟩

theorem count_groups_trace (pre loop : List Event)
    (hpre : ∀ ev ∈ pre, (∃ o bs, ev = Event.memcpyD2H o bs) ∨ ev = Event.blockHostUntilDone)
    (hloop : loop.count Event.groupStart = 0 ∧ loop.count Event.groupEnd = 0) :
    ((pre ++ Event.groupStart :: (loop ++ [Event.groupEnd])).count Event.groupStart = 1 ∧
     (pre ++ Event.groupStart :: (loop ++ [Event.groupEnd])).count Event.groupEnd = 1) ∧
    ((pre ++ Event.groupStart :: loop).count Event.groupStart = 1 ∧
     (pre ++ Event.groupStart :: loop).count Event.groupEnd = 0) := by
  have hpre1 : pre.count Event.groupStart = 0 := by
    rw [List.count_eq_zero]
    intro hmem
    rcases hpre _ hmem with ⟨o, bs, h⟩ | h <;> simp at h
  have hpre2 : pre.count Event.groupEnd = 0 := by
    rw [List.count_eq_zero]
    intro hmem
    rcases hpre _ hmem with ⟨o, bs, h⟩ | h <;> simp at h
  simp [List.count_append, List.count_cons, hpre1, hpre2, hloop.1, hloop.2]

/-- C8 (amended): within one invocation that reaches the batching scope
(`GroupStart` issued successfully, index decodes well-formed), the scope is
balanced exactly on the paths that do not fail inside it: the trace always
contains exactly one `GroupStart` call, and it contains a matching
`GroupEnd` call if and only if every `Send` and `Recv` of the peer loop
succeeds.  In particular a Send/Recv failure returns with the `GroupStart`
unmatched. -/
theorem group_scope_balance (env : Env) (E : Int) (R N : Nat)
    (b0 b1 : DeviceBufferPair) (d2 d3 d4 d5 : DeviceMemory)
    (t2 t3 t4 t5 : PrimitiveType) (w2 w3 w4 w5 : Nat)
    (ioff ssz ooff rsz : List Int) (mem : Mem)
    (hw2 : intWidthBytes t2 = some w2) (hw3 : intWidthBytes t3 = some w3)
    (hw4 : intWidthBytes t4 = some w4) (hw5 : intWidthBytes t5 = some w5)
    (hl2 : ioff.length = R) (hl3 : ssz.length = R)
    (hl4 : ooff.length = R) (hl5 : rsz.length = R)
    (hN : N ≤ R)
    (hf2 : ∀ x ∈ ioff, -(2 ^ (8 * w2 - 1)) ≤ x ∧ x < 2 ^ (8 * w2 - 1))
    (hf3 : ∀ x ∈ ssz, -(2 ^ (8 * w3 - 1)) ≤ x ∧ x < 2 ^ (8 * w3 - 1))
    (hf4 : ∀ x ∈ ooff, -(2 ^ (8 * w4 - 1)) ≤ x ∧ x < 2 ^ (8 * w4 - 1))
    (hf5 : ∀ x ∈ rsz, -(2 ^ (8 * w5 - 1)) ≤ x ∧ x < 2 ^ (8 * w5 - 1))
    (hreg : env.registerStatus = .ok ()) (hnum : env.numRanks = .ok N)
    (hmc : ∀ i, env.memcpyStatus i = .ok ()) (hblk : env.blockStatus = .ok ())
    (hgs : env.groupStartStatus = .ok ()) :
    ((RunRaggedAllToAll env E
        [b0, b1, ⟨t2, R, ⟨encodeIntArr w2 ioff⟩, d2⟩, ⟨t3, R, ⟨encodeIntArr w3 ssz⟩, d3⟩,
         ⟨t4, R, ⟨encodeIntArr w4 ooff⟩, d4⟩, ⟨t5, R, ⟨encodeIntArr w5 rsz⟩, d5⟩]
        mem).1.count Event.groupStart = 1) ∧
    (((RunRaggedAllToAll env E
        [b0, b1, ⟨t2, R, ⟨encodeIntArr w2 ioff⟩, d2⟩, ⟨t3, R, ⟨encodeIntArr w3 ssz⟩, d3⟩,
         ⟨t4, R, ⟨encodeIntArr w4 ooff⟩, d4⟩, ⟨t5, R, ⟨encodeIntArr w5 rsz⟩, d5⟩]
        mem).1.count Event.groupEnd = 1) ↔
      (∀ p, p < N → env.sendStatus p = .ok () ∧ env.recvStatus p = .ok ())) := by
  have hload : LoadOffsetAndSizeOperands env
      [b0, b1, ⟨t2, R, ⟨encodeIntArr w2 ioff⟩, d2⟩, ⟨t3, R, ⟨encodeIntArr w3 ssz⟩, d3⟩,
       ⟨t4, R, ⟨encodeIntArr w4 ooff⟩, d4⟩, ⟨t5, R, ⟨encodeIntArr w5 rsz⟩, d5⟩] mem =
      ([Event.memcpyD2H 0 (encodeIntArr w2 ioff),
        Event.memcpyD2H (R * 8) (encodeIntArr w3 ssz),
        Event.memcpyD2H (R * 8 + R * 8) (encodeIntArr w4 ooff),
        Event.memcpyD2H (R * 8 + R * 8 + R * 8) (encodeIntArr w5 rsz),
        Event.blockHostUntilDone],
       writeBytes (writeBytes (writeBytes (writeBytes mem 0 (encodeIntArr w2 ioff))
         (R * 8) (encodeIntArr w3 ssz)) (R * 8 + R * 8) (encodeIntArr w4 ooff))
         (R * 8 + R * 8 + R * 8) (encodeIntArr w5 rsz),
       .ok [⟨t2, 0⟩, ⟨t3, R * 8⟩, ⟨t4, R * 8 + R * 8⟩, ⟨t5, R * 8 + R * 8 + R * 8⟩]) := by
    rw [load_four_ok env b0 b1 _ _ _ _ mem hmc hblk]
  have hget := staged_get mem R t2 t3 t4 t5 w2 w3 w4 w5 hw2 hw3 hw4 hw5
    ioff ssz ooff rsz hl2 hl3 hl4 hl5 hf2 hf3 hf4 hf5
  by_cases hall : ∀ p, p < N → env.sendStatus p = .ok () ∧ env.recvStatus p = .ok ()
  · have hpl := peerLoop_ok env E b0
      (writeBytes (writeBytes (writeBytes (writeBytes mem 0 (encodeIntArr w2 ioff))
        (R * 8) (encodeIntArr w3 ssz)) (R * 8 + R * 8) (encodeIntArr w4 ooff))
        (R * 8 + R * 8 + R * 8) (encodeIntArr w5 rsz))
      ⟨t2, 0⟩ ⟨t3, R * 8⟩ ⟨t4, R * 8 + R * 8⟩ ⟨t5, R * 8 + R * 8 + R * 8⟩
      (fun p => ioff.getD p 0) (fun p => ssz.getD p 0)
      (fun p => ooff.getD p 0) (fun p => rsz.getD p 0)
      (List.range N)
      (fun p hp => (hget p (lt_of_lt_of_le (List.mem_range.mp hp) hN)).1)
      (fun p hp => (hget p (lt_of_lt_of_le (List.mem_range.mp hp) hN)).2.1)
      (fun p hp => (hget p (lt_of_lt_of_le (List.mem_range.mp hp) hN)).2.2.1)
      (fun p hp => (hget p (lt_of_lt_of_le (List.mem_range.mp hp) hN)).2.2.2)
      (fun p hp => (hall p (List.mem_range.mp hp)).1)
      (fun p hp => (hall p (List.mem_range.mp hp)).2)
    have hsh : ∀ ev ∈ ((List.range N).flatMap fun p =>
        [Event.send p b0.source_buffer.bytes (ioff.getD p 0 * E) (ssz.getD p 0 * E),
         Event.recv p b0.destination_buffer.bytes (ooff.getD p 0 * E)
           (rsz.getD p 0 * E)]),
        (∃ p o c, ev = Event.send p b0.source_buffer.bytes o c) ∨
        (∃ p o c, ev = Event.recv p b0.destination_buffer.bytes o c) := by
      intro ev hev
      exact peerLoop_events_shape env E b0 _ ⟨t2, 0⟩ ⟨t3, R * 8⟩ ⟨t4, R * 8 + R * 8⟩
        ⟨t5, R * 8 + R * 8 + R * 8⟩ (List.range N) ev (by rw [hpl]; exact hev)
    have hcz := count_groups_zero_of_shape b0.source_buffer.bytes
      b0.destination_buffer.bytes _ hsh
    have hpre : ∀ ev ∈ [Event.memcpyD2H 0 (encodeIntArr w2 ioff),
        Event.memcpyD2H (R * 8) (encodeIntArr w3 ssz),
        Event.memcpyD2H (R * 8 + R * 8) (encodeIntArr w4 ooff),
        Event.memcpyD2H (R * 8 + R * 8 + R * 8) (encodeIntArr w5 rsz),
        Event.blockHostUntilDone],
        (∃ o bs, ev = Event.memcpyD2H o bs) ∨ ev = Event.blockHostUntilDone := by
      intro ev hev
      simp at hev
      rcases hev with rfl | rfl | rfl | rfl | rfl
      · exact Or.inl ⟨_, _, rfl⟩
      · exact Or.inl ⟨_, _, rfl⟩
      · exact Or.inl ⟨_, _, rfl⟩
      · exact Or.inl ⟨_, _, rfl⟩
      · exact Or.inr rfl
    have hc := count_groups_trace _ _ hpre hcz
    rcases hge : env.groupEndStatus with ee | ue
    · have hrun := run_groupEnd_err env E _ mem N _ _ _ _ ee hreg hnum hload hgs hpl hge
      rw [hrun]
      exact ⟨hc.1.1, iff_of_true hc.1.2 hall⟩
    · have hrun := run_all_ok env E _ mem N _ _ _ _ hreg hnum hload hgs hpl hge
      rw [hrun]
      exact ⟨hc.1.1, iff_of_true hc.1.2 hall⟩
  · rcases hpl2 : peerLoop env E b0
        (writeBytes (writeBytes (writeBytes (writeBytes mem 0 (encodeIntArr w2 ioff))
          (R * 8) (encodeIntArr w3 ssz)) (R * 8 + R * 8) (encodeIntArr w4 ooff))
          (R * 8 + R * 8 + R * 8) (encodeIntArr w5 rsz))
        ⟨t2, 0⟩ ⟨t3, R * 8⟩ ⟨t4, R * 8 + R * 8⟩ ⟨t5, R * 8 + R * 8 + R * 8⟩
        (List.range N) with ⟨loopEvs, out⟩
    have hiff := peerLoop_ok_iff env E b0
      (writeBytes (writeBytes (writeBytes (writeBytes mem 0 (encodeIntArr w2 ioff))
        (R * 8) (encodeIntArr w3 ssz)) (R * 8 + R * 8) (encodeIntArr w4 ooff))
        (R * 8 + R * 8 + R * 8) (encodeIntArr w5 rsz))
      ⟨t2, 0⟩ ⟨t3, R * 8⟩ ⟨t4, R * 8 + R * 8⟩ ⟨t5, R * 8 + R * 8 + R * 8⟩
      (List.range N)
      (fun p hp =>
        have hpR := lt_of_lt_of_le (List.mem_range.mp hp) hN
        ⟨by rw [(hget p hpR).1]; simp, by rw [(hget p hpR).2.1]; simp,
         by rw [(hget p hpR).2.2.1]; simp, by rw [(hget p hpR).2.2.2]; simp⟩)
    rw [hpl2] at hiff
    simp only at hiff
    have hno : out ≠ .ok := by
      intro h
      exact hall (fun p hp => hiff.mp h p (List.mem_range.mpr hp))
    have hrun := run_loop_stops env E _ mem N _ _ _ loopEvs out hreg hnum hload hgs hpl2 hno
    rw [hrun]
    have hsh : ∀ ev ∈ loopEvs,
        (∃ p o c, ev = Event.send p b0.source_buffer.bytes o c) ∨
        (∃ p o c, ev = Event.recv p b0.destination_buffer.bytes o c) := by
      intro ev hev
      exact peerLoop_events_shape env E b0 _ ⟨t2, 0⟩ ⟨t3, R * 8⟩ ⟨t4, R * 8 + R * 8⟩
        ⟨t5, R * 8 + R * 8 + R * 8⟩ (List.range N) ev (by rw [hpl2]; exact hev)
    have hcz := count_groups_zero_of_shape b0.source_buffer.bytes
      b0.destination_buffer.bytes loopEvs hsh
    have hpre : ∀ ev ∈ [Event.memcpyD2H 0 (encodeIntArr w2 ioff),
        Event.memcpyD2H (R * 8) (encodeIntArr w3 ssz),
        Event.memcpyD2H (R * 8 + R * 8) (encodeIntArr w4 ooff),
        Event.memcpyD2H (R * 8 + R * 8 + R * 8) (encodeIntArr w5 rsz),
        Event.blockHostUntilDone],
        (∃ o bs, ev = Event.memcpyD2H o bs) ∨ ev = Event.blockHostUntilDone := by
      intro ev hev
      simp at hev
      rcases hev with rfl | rfl | rfl | rfl | rfl
      · exact Or.inl ⟨_, _, rfl⟩
      · exact Or.inl ⟨_, _, rfl⟩
      · exact Or.inl ⟨_, _, rfl⟩
      · exact Or.inl ⟨_, _, rfl⟩
      · exact Or.inr rfl
    have hc := count_groups_trace _ _ hpre hcz
    exact ⟨hc.2.1, iff_of_false (by rw [hc.2.2]; norm_num) hall⟩

/-- Witness for the amended C8 theorem at the concrete scenario (here every
send and recv succeeds, so the scope is balanced). -/
theorem group_scope_balance_witness :
    ((2 : Nat) ≤ 3 ∧
     (∀ x ∈ ([0, 2, 0] : List Int), -(2 ^ (8 * 8 - 1)) ≤ x ∧ x < 2 ^ (8 * 8 - 1))) ∧
    ((RunRaggedAllToAll (envAllOk 2) 4
        [⟨.F32, 12, ⟨[1, 2, 3]⟩, ⟨[4, 5, 6]⟩⟩, default,
         ⟨.S64, 3, ⟨encodeIntArr 8 [0, 2, 0]⟩, ⟨[]⟩⟩,
         ⟨.S64, 3, ⟨encodeIntArr 8 [2, 1, 0]⟩, ⟨[]⟩⟩,
         ⟨.S64, 3, ⟨encodeIntArr 8 [1, 0, 0]⟩, ⟨[]⟩⟩,
         ⟨.S64, 3, ⟨encodeIntArr 8 [1, 2, 0]⟩, ⟨[]⟩⟩] memZero).1.count
      Event.groupStart = 1) ∧
    (((RunRaggedAllToAll (envAllOk 2) 4
        [⟨.F32, 12, ⟨[1, 2, 3]⟩, ⟨[4, 5, 6]⟩⟩, default,
         ⟨.S64, 3, ⟨encodeIntArr 8 [0, 2, 0]⟩, ⟨[]⟩⟩,
         ⟨.S64, 3, ⟨encodeIntArr 8 [2, 1, 0]⟩, ⟨[]⟩⟩,
         ⟨.S64, 3, ⟨encodeIntArr 8 [1, 0, 0]⟩, ⟨[]⟩⟩,
         ⟨.S64, 3, ⟨encodeIntArr 8 [1, 2, 0]⟩, ⟨[]⟩⟩] memZero).1.count
      Event.groupEnd = 1) ↔
      (∀ p, p < 2 → (envAllOk 2).sendStatus p = .ok () ∧
        (envAllOk 2).recvStatus p = .ok ())) :=
  ⟨⟨by norm_num, by decide⟩,
    group_scope_balance (envAllOk 2) 4 3 2 ⟨.F32, 12, ⟨[1, 2, 3]⟩, ⟨[4, 5, 6]⟩⟩ default
      ⟨[]⟩ ⟨[]⟩ ⟨[]⟩ ⟨[]⟩ .S64 .S64 .S64 .S64 8 8 8 8
      [0, 2, 0] [2, 1, 0] [1, 0, 0] [1, 2, 0] memZero rfl rfl rfl rfl rfl rfl rfl rfl
      (by norm_num) (by decide) (by decide) (by decide) (by decide)
      rfl rfl (fun _ => rfl) rfl rfl⟩

/-- C10: in `LoadOffsetAndSizeOperands` the `i`-th staged index array
(`i = 0..3`, taken from buffer positions 2..5) is copied to the sub-region
starting at byte offset `i * ragged_row_count * 8` of the staging buffer
(the host pointer advances by `ragged_row_count` 64-bit words per array
regardless of element width); provided the four index operands all have
element count `ragged_row_count` and element width at most 8 bytes, the
four copied byte ranges are pairwise disjoint and lie within the
`4 * ragged_row_count * 8`-byte region allocated by `Initialize`. -/
theorem staging_ranges (env : Env) (R : Nat) (b0 b1 b2 b3 b4 b5 : DeviceBufferPair)
    (mem : Mem) (hmc : ∀ i, env.memcpyStatus i = .ok ())
    (hcnt : ∀ b ∈ [b2, b3, b4, b5], b.element_count = R)
    (hsz : ∀ b ∈ [b2, b3, b4, b5],
      b.source_buffer.bytes.length = b.element_count * primitiveByteWidth b.element_type) :
    ((LoadOffsetAndSizeOperands env [b0, b1, b2, b3, b4, b5] mem).1 =
      [Event.memcpyD2H 0 b2.source_buffer.bytes,
       Event.memcpyD2H (R * 8) b3.source_buffer.bytes,
       Event.memcpyD2H (R * 8 + R * 8) b4.source_buffer.bytes,
       Event.memcpyD2H (R * 8 + R * 8 + R * 8) b5.source_buffer.bytes,
       Event.blockHostUntilDone]) ∧
    List.Pairwise (fun x y => disjointRanges x.1 x.2 y.1 y.2)
      [(0, b2.source_buffer.bytes.length), (R * 8, b3.source_buffer.bytes.length),
       (R * 8 + R * 8, b4.source_buffer.bytes.length),
       (R * 8 + R * 8 + R * 8, b5.source_buffer.bytes.length)] ∧
    (∀ r ∈ [(0, b2.source_buffer.bytes.length), (R * 8, b3.source_buffer.bytes.length),
       (R * 8 + R * 8, b4.source_buffer.bytes.length),
       (R * 8 + R * 8 + R * 8, b5.source_buffer.bytes.length)],
      withinRegion r.1 r.2 (4 * R * 8)) := by
  have hb2 : b2.element_count = R := hcnt b2 (by simp)
  have hL2 : b2.source_buffer.bytes.length ≤ R * 8 := by
    rw [hsz b2 (by simp), hb2]
    exact Nat.mul_le_mul_left R (primitiveByteWidth_le_8 _)
  have hL3 : b3.source_buffer.bytes.length ≤ R * 8 := by
    rw [hsz b3 (by simp), hcnt b3 (by simp)]
    exact Nat.mul_le_mul_left R (primitiveByteWidth_le_8 _)
  have hL4 : b4.source_buffer.bytes.length ≤ R * 8 := by
    rw [hsz b4 (by simp), hcnt b4 (by simp)]
    exact Nat.mul_le_mul_left R (primitiveByteWidth_le_8 _)
  have hL5 : b5.source_buffer.bytes.length ≤ R * 8 := by
    rw [hsz b5 (by simp), hcnt b5 (by simp)]
    exact Nat.mul_le_mul_left R (primitiveByteWidth_le_8 _)
  refine ⟨?_, ?_, ?_⟩
  · rcases hblk : env.blockStatus with eb | u
    · rw [load_four_err env b0 b1 b2 b3 b4 b5 mem eb hmc hblk, hb2]
    · rw [load_four_ok env b0 b1 b2 b3 b4 b5 mem hmc hblk, hb2]
  · refine List.Pairwise.cons ?_ (List.Pairwise.cons ?_ (List.Pairwise.cons ?_
      (List.Pairwise.cons ?_ List.Pairwise.nil)))
    · intro y hy
      simp only [List.mem_cons, List.not_mem_nil, or_false] at hy
      rcases hy with rfl | rfl | rfl <;> simp only [disjointRanges] <;> omega
    · intro y hy
      simp only [List.mem_cons, List.not_mem_nil, or_false] at hy
      rcases hy with rfl | rfl <;> simp only [disjointRanges] <;> omega
    · intro y hy
      simp only [List.mem_cons, List.not_mem_nil, or_false] at hy
      rcases hy with rfl <;> simp only [disjointRanges] <;> omega
    · intro y hy
      simp at hy
  · intro r hr
    simp only [List.mem_cons, List.not_mem_nil, or_false] at hr
    rcases hr with rfl | rfl | rfl | rfl <;> simp only [withinRegion] <;> omega

/-- Witness for C10 at concrete mixed-width index operands (R = 3; widths
8, 4, 4, 8 bytes): the copies land at byte offsets 0, 24, 48, 72. -/
theorem staging_ranges_witness :
    ((∀ b ∈ [(⟨.S64, 3, ⟨List.replicate 24 7⟩, ⟨[]⟩⟩ : DeviceBufferPair),
        ⟨.S32, 3, ⟨List.replicate 12 7⟩, ⟨[]⟩⟩, ⟨.U32, 3, ⟨List.replicate 12 7⟩, ⟨[]⟩⟩,
        ⟨.U64, 3, ⟨List.replicate 24 7⟩, ⟨[]⟩⟩], b.element_count = 3) ∧
     (∀ b ∈ [(⟨.S64, 3, ⟨List.replicate 24 7⟩, ⟨[]⟩⟩ : DeviceBufferPair),
        ⟨.S32, 3, ⟨List.replicate 12 7⟩, ⟨[]⟩⟩, ⟨.U32, 3, ⟨List.replicate 12 7⟩, ⟨[]⟩⟩,
        ⟨.U64, 3, ⟨List.replicate 24 7⟩, ⟨[]⟩⟩],
       b.source_buffer.bytes.length = b.element_count * primitiveByteWidth b.element_type)) ∧
    (LoadOffsetAndSizeOperands (envAllOk 2)
        [⟨.F32, 12, ⟨[]⟩, ⟨[]⟩⟩, ⟨.F32, 12, ⟨[]⟩, ⟨[]⟩⟩,
         ⟨.S64, 3, ⟨List.replicate 24 7⟩, ⟨[]⟩⟩, ⟨.S32, 3, ⟨List.replicate 12 7⟩, ⟨[]⟩⟩,
         ⟨.U32, 3, ⟨List.replicate 12 7⟩, ⟨[]⟩⟩, ⟨.U64, 3, ⟨List.replicate 24 7⟩, ⟨[]⟩⟩]
        memZero).1 =
      [Event.memcpyD2H 0 (List.replicate 24 7), Event.memcpyD2H 24 (List.replicate 12 7),
       Event.memcpyD2H 48 (List.replicate 12 7), Event.memcpyD2H 72 (List.replicate 24 7),
       Event.blockHostUntilDone] :=
  ⟨⟨by decide, by decide⟩,
    (staging_ranges (envAllOk 2) 3 ⟨.F32, 12, ⟨[]⟩, ⟨[]⟩⟩ ⟨.F32, 12, ⟨[]⟩, ⟨[]⟩⟩
      ⟨.S64, 3, ⟨List.replicate 24 7⟩, ⟨[]⟩⟩ ⟨.S32, 3, ⟨List.replicate 12 7⟩, ⟨[]⟩⟩
      ⟨.U32, 3, ⟨List.replicate 12 7⟩, ⟨[]⟩⟩ ⟨.U64, 3, ⟨List.replicate 24 7⟩, ⟨[]⟩⟩
      memZero (fun _ => rfl) (by decide) (by decide)).1⟩
